import Mathlib

/-!
# zcash_chain_indexer: sync engine and block decoder

A shallow embedding of `src/syncer.cpp` and `src/chain_resource.cpp`.

* Heights and counters are `uint64_t` / `size_t` in the source.  They are natural numbers here
  and every addition and subtraction of the source is taken modulo `2 ^ 64` (`add64`, `sub64`);
  the one `uint` local of `Syncer::Sync` is taken modulo `2 ^ 32`.
* `Json::Value` (jsoncpp) is the inductive type `Json`.  Its accessors follow jsoncpp: an accessor
  used on a value of the wrong kind throws `Json::LogicError`, which is an `Except` error here.
* `double` is a type parameter `F` with the operations of `DoubleOps`; nothing is assumed about
  rounding.
* Loops that the source cannot be shown to leave (`while (startRange <= endRange)` and the
  like) take a fuel argument and answer `none` when the fuel is used up.
* The node, the database and the worker threads are outside `src/`; the calls made to them
  are recorded in `Effects` and what they answer is a parameter.
* An exception that leaves a function while its vector of threads holds a joinable
  `std::thread` ends in `std::terminate` (`unwindPast`).
-/

namespace ZcashIndexer

/-! ## Machine integers -/

/-- Addition of two `uint64_t` (or `size_t`) values. -/
def add64 (a b : Nat) : Nat := (a + b) % 2 ^ 64

/-- Subtraction of two `uint64_t` (or `size_t`) values. -/
def sub64 (a b : Nat) : Nat := (a + (2 ^ 64 - b % 2 ^ 64)) % 2 ^ 64

/-- Conversion to `uint` (`unsigned int`, 32 bits). -/
def toUInt32 (a : Nat) : Nat := a % 2 ^ 32

/-- Conversion of a signed integer to `uint64_t` (`static_cast<uint64_t>`). -/
def toUInt64 (i : Int) : Nat := (i % 2 ^ 64).toNat

/-! ## Doubles -/

/-- The operations on `double` that the source uses. -/
class DoubleOps (F : Type) where
  /-- The literal `0.0`. -/
  zero : F
  /-- The literal `1.0`. -/
  one : F
  /-- Addition, `a + b` and `a += b`. -/
  add : F → F → F
  /-- Conversion `static_cast<double>` of an integer. -/
  ofInt : Int → F
  /-- Conversion to `Json::Int`; `none` when the value is out of the range of `Json::Int`. -/
  toInt : F → Option Int
  /-- Conversion to `Json::LargestInt`; `none` when out of range. -/
  toLargestInt : F → Option Int
  /-- Conversion to `Json::LargestUInt`; `none` when out of range. -/
  toLargestUInt : F → Option Nat
  /-- The text jsoncpp gives for a real (`valueToString`). -/
  jsonText : F → String
  /-- The text of `std::to_string(double)`. -/
  toStdString : F → String

/-- Whole-number doubles: the instance used to evaluate the model on concrete documents.  Every
value and every sum that occurs in those documents is a small integer, which `double` holds
exactly. -/
instance : DoubleOps Int where
  zero := 0
  one := 1
  add := fun a b => a + b
  ofInt := fun i => i
  toInt := fun d => if -2147483648 ≤ d ∧ d ≤ 2147483647 then some d else none
  toLargestInt := fun d => if -9223372036854775808 ≤ d ∧ d ≤ 9223372036854775807 then some d else none
  toLargestUInt := fun d => if 0 ≤ d ∧ d ≤ 18446744073709551615 then some d.toNat else none
  jsonText := fun d => toString d ++ ".0"
  toStdString := fun d => toString d ++ ".000000"

/-! ## `Json::Value` -/

/-- A jsoncpp value.  An array is the list of its elements and an object the list of its
members in the order jsoncpp iterates them. -/
inductive Json (F : Type) where
  | null
  | bool (b : Bool)
  | int (i : Int)
  | real (r : F)
  | str (s : String)
  | arr (elems : List (Json F))
  | obj (members : List (String × Json F))

namespace Json

variable {F : Type}

/-- The test `Json::Value::isNull`. -/
def isNull : Json F → Bool
  | null => true
  | _ => false

/-- The test `Json::Value::isArray`. -/
def isArray : Json F → Bool
  | arr _ => true
  | _ => false

/-- An array or an object: the kinds on which `Json::Value::clear` is allowed besides null. -/
def isDocument : Json F → Bool
  | arr _ => true
  | obj _ => true
  | _ => false

/-- The count `Json::Value::size`: elements of an array, members of an object, else 0. -/
def size : Json F → Nat
  | arr elems => elems.length
  | obj members => members.length
  | _ => 0

/-- The values a range-for over a `Json::Value` visits. -/
def items : Json F → List (Json F)
  | arr elems => elems
  | obj members => members.map Prod.snd
  | _ => []

/-- The member lookup `Json::Value::find`: only defined on null and on objects. -/
def find (v : Json F) (key : String) : Except String (Option (Json F)) :=
  match v with
  | null => .ok none
  | obj members => .ok ((members.find? (fun m => m.1 == key)).map Prod.snd)
  | _ => .error "in Json::Value::find(begin, end): requires objectValue or nullValue"

/-- The const `operator[](const char*)`: the member, or null when there is none. -/
def get (v : Json F) (key : String) : Except String (Json F) :=
  match v.find key with
  | .ok (some m) => .ok m
  | .ok none => .ok null
  | .error e => .error e

/-- The test `Json::Value::isMember`. -/
def isMember (v : Json F) (key : String) : Except String Bool :=
  match v.find key with
  | .ok m => .ok m.isSome
  | .error e => .error e

/-- The const `operator[](ArrayIndex)`: only defined on null and on arrays. -/
def index (v : Json F) (i : Nat) : Except String (Json F) :=
  match v with
  | null => .ok null
  | arr elems => .ok (elems.getD i null)
  | _ => .error "in Json::Value::operator[](ArrayIndex)const: requires arrayValue"

/-- The conversion `Json::Value::asString`. -/
def asString [DoubleOps F] : Json F → Except String String
  | null => .ok ""
  | str s => .ok s
  | bool b => .ok (if b then "true" else "false")
  | int i => .ok (toString i)
  | real r => .ok (DoubleOps.jsonText r)
  | _ => .error "Type is not convertible to string"

/-- The conversion `Json::Value::asCString`: only defined on strings. -/
def asCString : Json F → Except String String
  | str s => .ok s
  | _ => .error "in Json::Value::asCString(): requires stringValue"

/-- The conversion `Json::Value::asInt`. -/
def asInt [DoubleOps F] : Json F → Except String Int
  | int i => if -2147483648 ≤ i ∧ i ≤ 2147483647 then .ok i else .error "LargestInt out of Int range"
  | real r =>
    match DoubleOps.toInt r with
    | some i => .ok i
    | none => .error "double out of Int range"
  | null => .ok 0
  | bool b => .ok (if b then 1 else 0)
  | _ => .error "Value is not convertible to Int."

/-- The conversion `Json::Value::asLargestInt` (`asInt64`). -/
def asLargestInt [DoubleOps F] : Json F → Except String Int
  | int i =>
    if -9223372036854775808 ≤ i ∧ i ≤ 9223372036854775807 then .ok i
    else .error "LargestUInt out of Int64 range"
  | real r =>
    match DoubleOps.toLargestInt r with
    | some i => .ok i
    | none => .error "double out of Int64 range"
  | null => .ok 0
  | bool b => .ok (if b then 1 else 0)
  | _ => .error "Value is not convertible to Int64."

/-- The conversion `Json::Value::asLargestUInt`. -/
def asLargestUInt [DoubleOps F] : Json F → Except String Nat
  | int i =>
    if 0 ≤ i ∧ i ≤ 18446744073709551615 then .ok i.toNat
    else .error "LargestInt out of UInt64 range"
  | real r =>
    match DoubleOps.toLargestUInt r with
    | some n => .ok n
    | none => .error "double out of UInt64 range"
  | null => .ok 0
  | bool b => .ok (if b then 1 else 0)
  | _ => .error "Value is not convertible to UInt64."

/-- The conversion `Json::Value::asUInt64`, the same as `asLargestUInt`. -/
def asUInt64 [DoubleOps F] (v : Json F) : Except String Nat := v.asLargestUInt

/-- The conversion `Json::Value::asDouble`. -/
def asDouble [DoubleOps F] : Json F → Except String F
  | int i => .ok (DoubleOps.ofInt i)
  | real r => .ok r
  | null => .ok DoubleOps.zero
  | bool b => .ok (if b then DoubleOps.one else DoubleOps.zero)
  | _ => .error "Value is not convertible to double."

/-- The call `Json::Value::clear`: only defined on null, arrays and objects. -/
def clear : Json F → Except String (Json F)
  | null => .ok null
  | arr _ => .ok (arr [])
  | obj _ => .ok (obj [])
  | _ => .error "in Json::Value::clear(): requires complex value"

end Json

/-! ## The node, the database and the worker threads -/

/-- What ends a call that does not return.  `exceptionPointer` is the `std::exception*` of
`throw new std::exception()`: a handler `catch (std::exception &)` does not match it.
`terminate` is not an exception: `std::terminate` ran, which no handler stops. -/
inductive Thrown where
  | stdException (what : String)
  | exceptionPointer
  | terminate
deriving DecidableEq, Repr

/-- How a call ended: it returned, or an exception left it. -/
inductive Completion where
  | returned
  | threw (e : Thrown)
deriving DecidableEq, Repr

/-- What `httpClient.CallMethod` does: it returns a value, raises `jsonrpc::JsonRpcException`,
or raises another `std::exception`. -/
inductive RpcOutcome (F : Type) where
  | result (v : Json F)
  | jsonRpcException (what : String)
  | stdException (what : String)

/-- A row of the checkpoint table, `Database::Checkpoint`. -/
structure Checkpoint where
  chunkStartHeight : Nat
  chunkEndHeight : Nat
  lastCheckpoint : Nat
deriving DecidableEq, Repr

/-- The five arguments of one `Database::StoreChunk` call. -/
structure StoreChunkArgs (F : Type) where
  isTrackingCheckpointForChunks : Bool
  chunk : List (Json F)
  chunkStartHeight : Nat
  chunkEndHeight : Nat
  resumeHeight : Nat

/-- A `std::thread` of `processingThreads`: the call it runs and whether it is still joinable
(started and not yet joined). -/
structure Worker (F : Type) where
  args : StoreChunkArgs F
  joinable : Bool

/-- The calls the syncer has made to its collaborators, each list in call order. -/
structure Effects (F : Type) where
  /-- The parameter arrays of the `CallMethod("getblock", ·)` calls. -/
  rpcCalls : List (List (Json F))
  /-- The heights given to `Database::AddMissedBlock`. -/
  missedBlocks : List Nat
  /-- The arguments of the `Database::CreateCheckpointIfNonExistent` calls. -/
  createdCheckpoints : List (Nat × Nat)
  /-- The `StoreChunk` calls handed to a new worker thread. -/
  storeChunkCalls : List (StoreChunkArgs F)

/-- No call made yet. -/
def Effects.none {F : Type} : Effects F := ⟨[], [], [], []⟩

/-- Modelled from the spec: the constant `Syncer::BLOCK_DOWNLOAD_VERBOSE_LEVEL` of `syncer.h`,
"a fixed constant (2) of this component". -/
def BLOCK_DOWNLOAD_VERBOSE_LEVEL : Int := 2

/-! ## `syncer.cpp` -/

section Syncer

variable {F : Type}

/-- The parameter array `DownloadBlocks` sends for one height. -/
def getblockParams (height : Nat) : List (Json F) :=
  [Json.str (toString height), Json.int BLOCK_DOWNLOAD_VERBOSE_LEVEL]

/-- The function `Syncer::DownloadBlocks`: the loop over `startRange .. endRange`.  The
result is how the call ended, the vector `downloadBlocks` and the calls made. -/
def DownloadBlocks (rpc : List (Json F) → RpcOutcome F) :
    Nat → Effects F → List (Json F) → Nat → Nat → Option (Completion × List (Json F) × Effects F)
  | 0, _, _, _, _ => none
  | fuel + 1, w, downloadBlocks, startRange, endRange =>
    if startRange ≤ endRange then
      let w1 := { w with rpcCalls := w.rpcCalls ++ [getblockParams startRange] }
      match rpc (getblockParams startRange) with
      | .result blockResultSerialized =>
        if blockResultSerialized.isNull then
          -- throw new std::exception(): neither handler matches a pointer
          some (.threw .exceptionPointer, downloadBlocks, w1)
        else
          match blockResultSerialized.clear with
          | .ok _ =>
            DownloadBlocks rpc fuel w1 (downloadBlocks ++ [blockResultSerialized])
              (add64 startRange 1) endRange
          | .error e =>
            some (.threw (.stdException e), downloadBlocks ++ [blockResultSerialized], w1)
      | .jsonRpcException _ =>
        DownloadBlocks rpc fuel { w1 with missedBlocks := w1.missedBlocks ++ [startRange] }
          (downloadBlocks ++ [Json.null]) (add64 startRange 1) endRange
      | .stdException _ =>
        DownloadBlocks rpc fuel { w1 with missedBlocks := w1.missedBlocks ++ [startRange] }
          (downloadBlocks ++ [Json.null]) (add64 startRange 1) endRange
    else
      some (.returned, downloadBlocks, w)

/-- The loop of `Syncer::DownloadBlocksFromHeights` over the heights not yet visited.
`params` is `getblockParams` as the previous pass left it. -/
def DownloadBlocksFromHeights.loop (rpc : List (Json F) → RpcOutcome F) :
    List Nat → List (Json F) → List (Json F) → Effects F → List (Json F) × Effects F
  | [], _, downloadedBlocks, w => (downloadedBlocks, w)
  | height :: rest, params, downloadedBlocks, w =>
    let params1 := params ++ [Json.str (toString height), Json.int 2]
    let w1 := { w with rpcCalls := w.rpcCalls ++ [params1] }
    match rpc params1 with
    | .result blockResultSerialized =>
      if blockResultSerialized.isNull then
        -- ++i; continue;  (getblockParams keeps its elements)
        DownloadBlocksFromHeights.loop rpc rest params1 downloadedBlocks w1
      else
        -- push_back; whether or not clear() then throws, the next pass starts with empty params
        DownloadBlocksFromHeights.loop rpc rest [] (downloadedBlocks ++ [blockResultSerialized]) w1
    | .jsonRpcException _ => DownloadBlocksFromHeights.loop rpc rest [] downloadedBlocks w1
    | .stdException _ => DownloadBlocksFromHeights.loop rpc rest [] downloadedBlocks w1

/-- The function `Syncer::DownloadBlocksFromHeights`. -/
def DownloadBlocksFromHeights (CHUNK_SIZE : Nat) (rpc : List (Json F) → RpcOutcome F)
    (w : Effects F) (downloadedBlocks : List (Json F)) (heightsToDownload : List Nat) :
    Completion × List (Json F) × Effects F :=
  if heightsToDownload.length > CHUNK_SIZE then
    (.threw (.stdException "Only allowed to download CHUNK_SIZE blocks at a time."),
      downloadedBlocks, w)
  else
    let r := DownloadBlocksFromHeights.loop rpc heightsToDownload [] downloadedBlocks w
    (.returned, r.1, r.2)

/-- The function `Syncer::CheckAndDeleteJoinableProcessingThreads`: erase the threads that are
not joinable. -/
def CheckAndDeleteJoinableProcessingThreads (processingThreads : List (Worker F)) :
    List (Worker F) :=
  processingThreads.filter (fun t => t.joinable)

/-- The function `Syncer::JoinAndWaitForAllThreadsToFinish`: join every joinable thread. -/
def JoinAndWaitForAllThreadsToFinish (threads : List (Worker F)) : List (Worker F) :=
  threads.map (fun t => { t with joinable := false })

/-- The for loop of the admission wait: join the first joinable thread, if there is one. -/
def joinFirstJoinable : List (Worker F) → Option (List (Worker F))
  | [] => none
  | t :: rest =>
    if t.joinable then some ({ t with joinable := false } :: rest)
    else (joinFirstJoinable rest).map (fun r => t :: r)

/-- The admission wait `while (processingThreads.size() >= MAX_CONCURRENT_THREADS)`.  A pass
that finds no joinable thread sleeps and probes again. -/
def admission (MAX_CONCURRENT_THREADS : Nat) : Nat → List (Worker F) → Option (List (Worker F))
  | 0, _ => none
  | fuel + 1, processingThreads =>
    if processingThreads.length ≥ MAX_CONCURRENT_THREADS then
      match joinFirstJoinable processingThreads with
      | some joined =>
        admission MAX_CONCURRENT_THREADS fuel (CheckAndDeleteJoinableProcessingThreads joined)
      | none => admission MAX_CONCURRENT_THREADS fuel processingThreads
    else
      some processingThreads

/-- An exception that leaves a function destroys its local `std::vector<std::thread>
processingThreads`, and the destructor of a `std::thread` that is still joinable calls
`std::terminate`: with such a thread in the vector the process is ended, whatever was
thrown. -/
def unwindPast (processingThreads : List (Worker F)) (e : Thrown) : Thrown :=
  if processingThreads.any (fun t => t.joinable) then .terminate else e

/-- The chunk end computed for a chunk start, as `DoConcurrentSyncOnRange` does it before its
loop and at the end of each pass. -/
def chunkEndFor (CHUNK_SIZE end_ chunkStartPoint : Nat) : Nat :=
  if add64 (sub64 end_ chunkStartPoint) 1 ≥ CHUNK_SIZE then
    sub64 (add64 chunkStartPoint CHUNK_SIZE) 1
  else
    end_

/-- The loop `while (chunkStartPoint <= end)` of `Syncer::DoConcurrentSyncOnRange`.  An
exception of the download leaves the function past the workers in flight (`unwindPast`). -/
def DoConcurrentSyncOnRange.loop (CHUNK_SIZE MAX_CONCURRENT_THREADS : Nat)
    (rpc : List (Json F) → RpcOutcome F)
    (isTrackingCheckpointForChunks checkpointExist : Bool) (start end_ : Nat) :
    Nat → Effects F → List (Worker F) → Nat → Nat →
      Option (Completion × List (Worker F) × Effects F)
  | 0, _, _, _, _ => none
  | fuel + 1, w, processingThreads, chunkStartPoint, chunkEndPoint =>
    if chunkStartPoint ≤ end_ then
      let isExistingCheckpoint := !(!checkpointExist && isTrackingCheckpointForChunks)
      let w1 :=
        if !checkpointExist && isTrackingCheckpointForChunks then
          { w with createdCheckpoints := w.createdCheckpoints ++ [(chunkStartPoint, chunkEndPoint)] }
        else w
      match DownloadBlocks rpc fuel w1 [] chunkStartPoint chunkEndPoint with
      | none => none
      | some (.threw e, _, w2) =>
        some (.threw (unwindPast processingThreads e), processingThreads, w2)
      | some (.returned, downloadedBlocks, w2) =>
        match admission MAX_CONCURRENT_THREADS fuel processingThreads with
        | none => none
        | some admitted =>
          let call : StoreChunkArgs F :=
            ⟨isTrackingCheckpointForChunks, downloadedBlocks, chunkStartPoint, chunkEndPoint,
              if isExistingCheckpoint then start else chunkStartPoint⟩
          let w3 := { w2 with storeChunkCalls := w2.storeChunkCalls ++ [call] }
          let next := add64 chunkEndPoint 1
          DoConcurrentSyncOnRange.loop CHUNK_SIZE MAX_CONCURRENT_THREADS rpc
            isTrackingCheckpointForChunks checkpointExist start end_ fuel w3
            (admitted ++ [⟨call, true⟩]) next (chunkEndFor CHUNK_SIZE end_ next)
    else
      some (.returned, processingThreads, w)

/-- The function `Syncer::DoConcurrentSyncOnRange`.  `GetCheckpoint` is what the database
answers to `GetCheckpoint(start)`. -/
def DoConcurrentSyncOnRange (CHUNK_SIZE MAX_CONCURRENT_THREADS : Nat)
    (rpc : List (Json F) → RpcOutcome F) (GetCheckpoint : Nat → Option Checkpoint)
    (fuel : Nat) (w : Effects F) (isTrackingCheckpointForChunks : Bool) (start end_ : Nat) :
    Option (Completion × Effects F) :=
  let checkpointOpt := GetCheckpoint start
  let checkpointExist := checkpointOpt.isSome
  let chunkEndPoint := chunkEndFor CHUNK_SIZE end_ start
  let chunkStartPoint :=
    match checkpointOpt with
    | some checkpoint => checkpoint.lastCheckpoint
    | none => start
  match DoConcurrentSyncOnRange.loop CHUNK_SIZE MAX_CONCURRENT_THREADS rpc
      isTrackingCheckpointForChunks checkpointExist start end_ fuel w [] chunkStartPoint
      chunkEndPoint with
  | none => none
  | some (.threw e, _, w1) => some (.threw e, w1)
  | some (.returned, processingThreads, w1) =>
    let joined := JoinAndWaitForAllThreadsToFinish processingThreads
    let remaining := CheckAndDeleteJoinableProcessingThreads joined
    if remaining.length > 0 then
      some (.threw
        (unwindPast remaining (.stdException "Dangling processing threads still running...")),
        w1)
    else
      some (.returned, w1)

/-- The function `Syncer::SyncUnfinishedCheckpoints`; `checkpoints` is the stack
`GetUnfinishedCheckpoints` returned, its top first. -/
def SyncUnfinishedCheckpoints (CHUNK_SIZE MAX_CONCURRENT_THREADS : Nat)
    (rpc : List (Json F) → RpcOutcome F) (GetCheckpoint : Nat → Option Checkpoint)
    (fuel : Nat) : Effects F → List Checkpoint → Option (Completion × Effects F)
  | w, [] => some (.returned, w)
  | w, currentCheckpoint :: checkpoints =>
    match DoConcurrentSyncOnRange CHUNK_SIZE MAX_CONCURRENT_THREADS rpc GetCheckpoint fuel w true
        currentCheckpoint.chunkStartHeight currentCheckpoint.chunkEndHeight with
    | none => none
    | some (.threw e, w1) => some (.threw e, w1)
    | some (.returned, w1) =>
      SyncUnfinishedCheckpoints CHUNK_SIZE MAX_CONCURRENT_THREADS rpc GetCheckpoint fuel w1
        checkpoints

/-- The function `Syncer::DoConcurrentSyncOnChunk`.  `InvalidHeight` is the constant
`Database::InvalidHeight`. -/
def DoConcurrentSyncOnChunk (CHUNK_SIZE InvalidHeight : Nat) (rpc : List (Json F) → RpcOutcome F)
    (w : Effects F) (chunkToProcess : List Nat) : Completion × Effects F :=
  match DownloadBlocksFromHeights CHUNK_SIZE rpc w [] chunkToProcess with
  | (.threw e, _, w1) => (.threw e, w1)
  | (.returned, downloadedBlocks, w1) =>
    let call : StoreChunkArgs F :=
      ⟨false, downloadedBlocks, InvalidHeight, InvalidHeight, InvalidHeight⟩
    let w2 := { w1 with storeChunkCalls := w1.storeChunkCalls ++ [call] }
    let processingThreads : List (Worker F) := [⟨call, true⟩]
    let joined := JoinAndWaitForAllThreadsToFinish processingThreads
    let remaining := CheckAndDeleteJoinableProcessingThreads joined
    if remaining.length > 0 then
      (.threw
        (unwindPast remaining (.stdException "Dangling processing threads still running...")),
        w2)
    else
      (.returned, w2)

/-- What `Syncer::Sync` does about new blocks once it has read the two cursors. -/
inductive SyncPath where
  /-- "No new blocks found mined": return at once. -/
  | noNewBlocks
  /-- One call `DoConcurrentSyncOnRange(isTracking, start, end)`. -/
  | byRange (isTrackingCheckpointForChunks : Bool) (start end_ : Nat)
  /-- One call `DoConcurrentSyncOnChunk(heights)`. -/
  | byChunk (heights : List Nat)
deriving DecidableEq, Repr

/-- The loop `for (size_t i = ...; i < latestBlockCount + 1; i++) heights.push_back(i)` of
`Syncer::Sync`, from `i` on; `bound` is `latestBlockCount + 1`.  As `i < bound` and `bound` is
a `uint64_t`, `i++` does not wrap. -/
def Sync.collectHeights (bound i : Nat) (heights : List Nat) : List Nat :=
  if i < bound then Sync.collectHeights bound (i + 1) (heights ++ [i]) else heights
termination_by bound - i

/-- The new-block part of `Syncer::Sync`, from `numNewBlocks = latestBlockCount -
latestBlockSynced` to the call of a range or list sync. -/
def Sync.newBlocks (CHUNK_SIZE latestBlockSynced latestBlockCount : Nat) : SyncPath :=
  let numNewBlocks := sub64 latestBlockCount latestBlockSynced
  if numNewBlocks = 0 then
    .noNewBlocks
  else if numNewBlocks ≥ CHUNK_SIZE then
    -- uint startRangeChunk
    let startRangeChunk :=
      toUInt32 (if latestBlockSynced = 0 then latestBlockSynced else add64 latestBlockSynced 1)
    .byRange true startRangeChunk latestBlockCount
  else
    .byChunk (Sync.collectHeights (add64 latestBlockCount 1) (add64 latestBlockSynced 1) [])

/-! ### The tip query, `ShouldSyncWallet` and `Sync` -/

/-- The test `std::string(text).find(needle) != std::string::npos`, on the characters. -/
def containsChars (needle : List Char) : List Char → Bool
  | [] => needle.isEmpty
  | c :: rest => needle.isPrefixOf (c :: rest) || containsChars needle rest

/-- The test `std::string(text).find(needle) != std::string::npos`. -/
def containsText (text needle : String) : Bool := containsChars needle.data text.data

/-- How a call that may end the process ended: it returned, or `exit(code)` ran. -/
inductive Ended (α : Type) where
  | returned (a : α)
  | exited (code : Nat)
deriving DecidableEq, Repr

/-- The members of a `Syncer` that `Sync` and `ShouldSyncWallet` read and write, and the
number of tip queries and of `GetSyncedBlockCountFromDB` calls made so far. -/
structure SyncerState where
  latestBlockSynced : Nat
  latestBlockCount : Nat
  isSyncing : Bool
  tipQueries : Nat
  dbReads : Nat
deriving DecidableEq, Repr

/-- What the node and the database answer to a `Syncer`, and the constants of its headers.
`getblockcount k` is the answer to the tip query made after `k` earlier ones, and
`GetSyncedBlockCountFromDB k` the answer to the read made after `k` earlier ones. -/
structure Collaborators (F : Type) where
  CHUNK_SIZE : Nat
  MAX_CONCURRENT_THREADS : Nat
  InvalidHeight : Nat
  getblock : List (Json F) → RpcOutcome F
  getblockcount : Nat → RpcOutcome F
  GetCheckpoint : Nat → Option Checkpoint
  GetUnfinishedCheckpoints : Except String (List Checkpoint)
  GetSyncedBlockCountFromDB : Nat → Nat

/-- The loop `while (what has "Loading block index" && what has "Verifying blocks")` of
`LoadTotalBlockCountFromChain`; `what` does not change in it. -/
def LoadTotalBlockCountFromChain.wait (what : String) : Nat → Option Unit
  | 0 => none
  | fuel + 1 =>
    if containsText what "Loading block index" && containsText what "Verifying blocks" then
      LoadTotalBlockCountFromChain.wait what fuel
    else some ()

/-- The function `Syncer::LoadTotalBlockCountFromChain`. -/
def LoadTotalBlockCountFromChain [DoubleOps F] (getblockcount : Nat → RpcOutcome F) :
    Nat → SyncerState → Option (Ended SyncerState)
  | 0, _ => none
  | fuel + 1, s =>
    let s1 := { s with tipQueries := s.tipQueries + 1 }
    match getblockcount s.tipQueries with
    | .result v =>
      match v.asLargestUInt with
      | .ok count => some (.returned { s1 with latestBlockCount := count })
      | .error _ => some (.exited 1)
    | .jsonRpcException what =>
      if containsText what "Loading block index" then
        match LoadTotalBlockCountFromChain.wait what fuel with
        | none => none
        | some _ => LoadTotalBlockCountFromChain getblockcount fuel s1
      else
        some (.returned s1)
    | .stdException _ => some (.exited 1)

/-- The function `Syncer::LoadSyncedBlockCountFromDB`. -/
def LoadSyncedBlockCountFromDB (GetSyncedBlockCountFromDB : Nat → Nat) (s : SyncerState) :
    SyncerState :=
  { s with latestBlockSynced := GetSyncedBlockCountFromDB s.dbReads, dbReads := s.dbReads + 1 }

/-- The function `Syncer::ShouldSyncWallet`: its answer and the members it leaves. -/
def ShouldSyncWallet [DoubleOps F] (env : Collaborators F) (fuel : Nat) (s : SyncerState) :
    Option (Ended (Bool × SyncerState)) :=
  if s.isSyncing then
    some (.returned (false, s))
  else
    match LoadTotalBlockCountFromChain env.getblockcount fuel s with
    | none => none
    | some (.exited code) => some (.exited code)
    | some (.returned s1) =>
      let s2 := LoadSyncedBlockCountFromDB env.GetSyncedBlockCountFromDB s1
      some (.returned
        (!s2.isSyncing && decide (s2.latestBlockSynced < s2.latestBlockCount), s2))

/-- How a call of `Sync` ended: it returned, after its handler caught the exception `caught`
if there was one; or an exception its handler does not match left it, or `std::terminate`
ran, which both end the process; or `exit(code)` ran. -/
inductive SyncEnd where
  | returned (caught : Option String)
  | uncaught (e : Thrown)
  | exited (code : Nat)
deriving DecidableEq, Repr

/-- What an exception thrown inside the `try` of `Sync` leads to: the handler
`catch (std::exception &e)` prints it and `Sync` returns, or no handler matches; and
`std::terminate` reaches no handler. -/
def Sync.handler (e : Thrown) : SyncEnd :=
  match e with
  | .stdException what => .returned (some what)
  | .exceptionPointer => .uncaught .exceptionPointer
  | .terminate => .uncaught .terminate

/-- The function `Syncer::Sync`. -/
def Sync [DoubleOps F] (env : Collaborators F) (fuel : Nat) (s : SyncerState) (w : Effects F) :
    Option (SyncEnd × SyncerState × Effects F) :=
  let s1 := { s with isSyncing := true }
  match env.GetUnfinishedCheckpoints with
  | .error what => some (Sync.handler (.stdException what), s1, w)
  | .ok checkpoints =>
    match SyncUnfinishedCheckpoints env.CHUNK_SIZE env.MAX_CONCURRENT_THREADS env.getblock
        env.GetCheckpoint fuel w checkpoints with
    | none => none
    | some (.threw e, w1) => some (Sync.handler e, s1, w1)
    | some (.returned, w1) =>
      match LoadTotalBlockCountFromChain env.getblockcount fuel s1 with
      | none => none
      | some (.exited code) => some (.exited code, s1, w1)
      | some (.returned s2) =>
        let s3 := LoadSyncedBlockCountFromDB env.GetSyncedBlockCountFromDB s2
        match Sync.newBlocks env.CHUNK_SIZE s3.latestBlockSynced s3.latestBlockCount with
        | .noNewBlocks => some (.returned none, { s3 with isSyncing := false }, w1)
        | .byRange isTracking start end_ =>
          match DoConcurrentSyncOnRange env.CHUNK_SIZE env.MAX_CONCURRENT_THREADS env.getblock
              env.GetCheckpoint fuel w1 isTracking start end_ with
          | none => none
          | some (.threw e, w2) => some (Sync.handler e, s3, w2)
          | some (.returned, w2) =>
            some (.returned none,
              LoadSyncedBlockCountFromDB env.GetSyncedBlockCountFromDB
                { s3 with isSyncing := false }, w2)
        | .byChunk heights =>
          match DoConcurrentSyncOnChunk env.CHUNK_SIZE env.InvalidHeight env.getblock w1
              heights with
          | (.threw e, w2) => (some (Sync.handler e, s3, w2))
          | (.returned, w2) =>
            some (.returned none,
              LoadSyncedBlockCountFromDB env.GetSyncedBlockCountFromDB
                { s3 with isSyncing := false }, w2)

/-! ### Reading the node's answers -/

/-- The slot a download keeps for a height: what the node returned, null when the call
raised. -/
def slotFor (rpc : List (Json F) → RpcOutcome F) (height : Nat) : Json F :=
  match rpc (getblockParams height) with
  | .result v => v
  | _ => Json.null

/-- Whether the `getblock` call for a height raised an exception. -/
def raisedAt (rpc : List (Json F) → RpcOutcome F) (height : Nat) : Bool :=
  match rpc (getblockParams height) with
  | .result _ => false
  | _ => true

/-- Whether the `getblock` call for a height returned a block document (an object or an
array) or raised an exception. -/
def blockOrRaised (rpc : List (Json F) → RpcOutcome F) (height : Nat) : Bool :=
  match rpc (getblockParams height) with
  | .result v => v.isDocument
  | _ => true

/-! ### Chunks -/

/-- The heights of a chunk `[cs, ce]`, ascending. -/
def chunkHeights (c : Nat × Nat) : List Nat := List.range' c.1 (c.2 + 1 - c.1)

/-- The chunks as the specification lists them, from a chunk start `cs` on:
`ce = min(end, cs + CHUNK_SIZE - 1)`, the next start is `ce + 1`, stopping when `cs > end`.
At most `n` chunks are listed. -/
def specChunksFrom (CHUNK_SIZE end_ : Nat) : Nat → Nat → List (Nat × Nat)
  | 0, _ => []
  | n + 1, cs =>
    if cs ≤ end_ then
      (cs, min end_ (cs + CHUNK_SIZE - 1)) ::
        specChunksFrom CHUNK_SIZE end_ n (min end_ (cs + CHUNK_SIZE - 1) + 1)
    else []

/-- The chunks of `start .. end` as the specification lists them: `cs_0 = start`,
`ce_k = min(end, cs_k + CHUNK_SIZE - 1)`, `cs_(k+1) = ce_k + 1`, stopping when `cs > end`.
(No more than `end + 1 - start` chunks are needed when `CHUNK_SIZE >= 1`.) -/
def specChunks (CHUNK_SIZE start end_ : Nat) : List (Nat × Nat) :=
  specChunksFrom CHUNK_SIZE end_ (end_ + 1 - start) start

/-- The `StoreChunk` call that `DoConcurrentSyncOnRange` hands to the worker of a chunk on a
run in which every download returned. -/
def chunkCall (rpc : List (Json F) → RpcOutcome F)
    (isTrackingCheckpointForChunks checkpointExist : Bool) (start : Nat) (c : Nat × Nat) :
    StoreChunkArgs F :=
  ⟨isTrackingCheckpointForChunks, (chunkHeights c).map (slotFor rpc), c.1, c.2,
    if !(!checkpointExist && isTrackingCheckpointForChunks) then start else c.1⟩

/-- The calls made once `DoConcurrentSyncOnRange` has gone through the chunks `chunks`, every
download having returned. -/
def afterChunks (rpc : List (Json F) → RpcOutcome F)
    (isTrackingCheckpointForChunks checkpointExist : Bool) (start : Nat) (w : Effects F)
    (chunks : List (Nat × Nat)) : Effects F :=
  { rpcCalls := w.rpcCalls ++ (chunks.flatMap chunkHeights).map getblockParams
    missedBlocks := w.missedBlocks ++ (chunks.flatMap chunkHeights).filter (raisedAt rpc)
    createdCheckpoints :=
      w.createdCheckpoints ++
        (if !checkpointExist && isTrackingCheckpointForChunks then chunks else [])
    storeChunkCalls :=
      w.storeChunkCalls ++
        chunks.map (chunkCall rpc isTrackingCheckpointForChunks checkpointExist start) }

/-! ### The passes of the range loop -/

/-- The variables of the loop of `DoConcurrentSyncOnRange` between two passes. -/
structure RangeLoopState (F : Type) where
  w : Effects F
  processingThreads : List (Worker F)
  chunkStartPoint : Nat
  chunkEndPoint : Nat

/-- One pass of the loop of `DoConcurrentSyncOnRange`, the loop test having passed: the body
of `DoConcurrentSyncOnRange.loop` up to the point where the loop goes round again.  The
answer is `none` when the download or the admission wait does not end, an error when the
download throws, and the variables after the pass otherwise. -/
def DoConcurrentSyncOnRange.pass (CHUNK_SIZE MAX_CONCURRENT_THREADS : Nat)
    (rpc : List (Json F) → RpcOutcome F)
    (isTrackingCheckpointForChunks checkpointExist : Bool) (start end_ : Nat) (fuel : Nat)
    (st : RangeLoopState F) : Option (Except (Thrown × Effects F) (RangeLoopState F)) :=
  let isExistingCheckpoint := !(!checkpointExist && isTrackingCheckpointForChunks)
  let w1 :=
    if !checkpointExist && isTrackingCheckpointForChunks then
      { st.w with
        createdCheckpoints :=
          st.w.createdCheckpoints ++ [(st.chunkStartPoint, st.chunkEndPoint)] }
    else st.w
  match DownloadBlocks rpc fuel w1 [] st.chunkStartPoint st.chunkEndPoint with
  | none => none
  | some (.threw e, _, w2) => some (.error (e, w2))
  | some (.returned, downloadedBlocks, w2) =>
    match admission MAX_CONCURRENT_THREADS fuel st.processingThreads with
    | none => none
    | some admitted =>
      let call : StoreChunkArgs F :=
        ⟨isTrackingCheckpointForChunks, downloadedBlocks, st.chunkStartPoint, st.chunkEndPoint,
          if isExistingCheckpoint then start else st.chunkStartPoint⟩
      let next := add64 st.chunkEndPoint 1
      some (.ok
        { w := { w2 with storeChunkCalls := w2.storeChunkCalls ++ [call] }
          processingThreads := admitted ++ [⟨call, true⟩]
          chunkStartPoint := next
          chunkEndPoint := chunkEndFor CHUNK_SIZE end_ next })

/-- The variables of the loop after `k` more passes, each of which passed the loop test and
ran to its end; `none` when the loop does not make `k` such passes.  The fuel goes down as in
`DoConcurrentSyncOnRange.loop`. -/
def DoConcurrentSyncOnRange.afterPasses (CHUNK_SIZE MAX_CONCURRENT_THREADS : Nat)
    (rpc : List (Json F) → RpcOutcome F)
    (isTrackingCheckpointForChunks checkpointExist : Bool) (start end_ : Nat) :
    Nat → Nat → RangeLoopState F → Option (RangeLoopState F)
  | _, 0, st => some st
  | 0, _ + 1, _ => none
  | fuel + 1, k + 1, st =>
    if st.chunkStartPoint ≤ end_ then
      match DoConcurrentSyncOnRange.pass CHUNK_SIZE MAX_CONCURRENT_THREADS rpc
          isTrackingCheckpointForChunks checkpointExist start end_ fuel st with
      | some (.ok st1) =>
        DoConcurrentSyncOnRange.afterPasses CHUNK_SIZE MAX_CONCURRENT_THREADS rpc
          isTrackingCheckpointForChunks checkpointExist start end_ fuel k st1
      | _ => none
    else none

end Syncer

/-! ## `chain_resource.cpp` -/

/-- A cell of a row, `BlockData`: a text, an unsigned number or a double. -/
inductive BlockData (F : Type) where
  | str (s : String)
  | num (n : Nat)
  | dbl (d : F)
deriving DecidableEq, Repr

/-- A row for bulk insert, `std::vector<BlockData>`. -/
abbrev Row (F : Type) := List (BlockData F)

/-- The map `orm_storage_map` with its four keys. -/
structure OrmStorageMap (F : Type) where
  block : List (Row F)
  transaction : List (Row F)
  transparent_input : List (Row F)
  transparent_output : List (Row F)
deriving DecidableEq, Repr

/-- A row of the table `transparent_outputs` as a lookup reads it. -/
structure StoredOutput (F : Type) where
  value : F
  recipients : String
deriving DecidableEq, Repr

/-- What `Database::ExecuteRead` answers for `(tx_id, output_index)`: an exception, no value
(`std::nullopt`), or the rows of the result. -/
abbrev OutputLookup (F : Type) := String → Nat → Except String (Option (List (StoredOutput F)))

/-- The fields of a `Block` object. -/
structure Block (F : Type) where
  nonce : String
  version : Nat
  prev_block_hash : String
  next_block_hash : String
  merkle_root : String
  timestamp : Nat
  difficulty : Nat
  transactions : Json F
  num_transactions : Nat
  hash : String
  height : Nat
  size : Nat
  chainwork : String
  bits : String
  total_outputs : Nat
  total_inputs : Nat
  total_transparent_output : F
  total_transparent_input : F
  transaction_ids_database_representation : String

section ChainResource

variable {F : Type} [DoubleOps F]

/-- The variables of `Block::_storeTransparentInputs`: its locals, its two reference
parameters, and the lookups made so far. -/
structure InputsState (F : Type) where
  vin_tx_id : String
  v_out_idx : Nat
  coinbase : String
  senders : String
  current_input_value : F
  /-- The reference parameter `total_transparent_input`. -/
  total_transparent_input : F
  /-- The reference parameter `transparent_transaction_inputs_values`. -/
  rows : List (Row F)
  /-- The `(tx_id, output_index)` of the `Database::ExecuteRead` calls, in call order. -/
  lookups : List (String × Nat)

/-- The tail of the loop body of `_storeTransparentInputs`, run for coinbase and other inputs
alike: reset `senders` and `current_input_value`, then append the row. -/
def storeInputRow (tx_id : String) (st : InputsState F) : InputsState F :=
  let st1 := { st with senders := "\x7b\x7d", current_input_value := DoubleOps.zero }
  { st1 with
    rows := st1.rows ++ [[.str tx_id, .str st1.vin_tx_id, .num st1.v_out_idx,
      .dbl st1.current_input_value, .str st1.senders, .str st1.coinbase]] }

/-- The body of the loop of `_storeTransparentInputs` for one input. -/
def storeInput (lookup : OutputLookup F) (tx_id : String) (st : InputsState F) (input : Json F) :
    Except String (InputsState F) := do
  if (← input.isMember "coinbase") then
    let coinbase ← (← input.get "coinbase").asString
    pure (storeInputRow tx_id
      { st with coinbase := coinbase, vin_tx_id := "-1", v_out_idx := 0, senders := "\x7b\x7d" })
  else
    let vin_tx_id ← (← input.get "txid").asString
    let v_out_idx := toUInt32 (toUInt64 (← (← input.get "vout").asInt))
    let st1 := { st with coinbase := "", vin_tx_id := vin_tx_id, v_out_idx := v_out_idx }
    let queryTxId ← (← input.get "txid").asString
    let queryIndex := toUInt64 (← (← input.get "vout").asInt)
    let database_read_result ← lookup queryTxId queryIndex
    let st2 := { st1 with lookups := st1.lookups ++ [(queryTxId, queryIndex)] }
    let st3 :=
      match database_read_result with
      | some db_read_result =>
        match db_read_result with
        | output_specified_in_vin :: _ =>
          { st2 with
            current_input_value := output_specified_in_vin.value,
            senders := output_specified_in_vin.recipients }
        | [] => st2
      | none => { st2 with senders := "\x7b\x7d", current_input_value := DoubleOps.zero }
    let st4 :=
      { st3 with
        total_transparent_input :=
          DoubleOps.add st3.total_transparent_input st3.current_input_value }
    pure (storeInputRow tx_id st4)

/-- The loop `for (const Json::Value &input : inputs)` of `_storeTransparentInputs`. -/
def storeInputs (lookup : OutputLookup F) (tx_id : String) :
    InputsState F → List (Json F) → Except String (InputsState F)
  | st, [] => .ok st
  | st, input :: rest =>
    match storeInput lookup tx_id st input with
    | .ok st1 => storeInputs lookup tx_id st1 rest
    | .error e => .error e

/-- The function `Block::_storeTransparentInputs`.  The arguments after `inputs` are the two
reference parameters and the lookups made before the call; the result holds them as the call
leaves them. -/
def _storeTransparentInputs (lookup : OutputLookup F) (tx_id : String) (inputs : Json F)
    (total_transparent_input : F) (rows : List (Row F)) (lookups : List (String × Nat)) :
    Except String (InputsState F) :=
  let st : InputsState F :=
    ⟨"", 0, "", "\x7b\x7d", DoubleOps.zero, total_transparent_input, rows, lookups⟩
  if inputs.size > 0 then storeInputs lookup tx_id st inputs.items else .ok st

/-- The variables of `Block::_storeTransparentOutputs`. -/
structure OutputsState (F : Type) where
  currentOutputValue : F
  outputIndex : Nat
  recipients : List String
  recipientList : String
  /-- The reference parameter `total_public_output`. -/
  total_public_output : F
  /-- The reference parameter `transparent_transaction_output_values`. -/
  rows : List (Row F)

/-- The loop `for (size_t i = 1; i < recipients.size(); ++i)` that appends the quoted
addresses after the first. -/
def appendRecipients (recipientList : String) : List String → String
  | [] => recipientList
  | r :: rest => appendRecipients (recipientList ++ ",\"" ++ r ++ "\"") rest

/-- The loop `for (const Json::Value &vOutAddress : vOutAddresses)` that pushes each address
onto `recipients`. -/
def collectRecipients (recipients : List String) : List (Json F) → Except String (List String)
  | [] => .ok recipients
  | vOutAddress :: rest =>
    match vOutAddress.asString with
    | .ok address => collectRecipients (recipients ++ [address]) rest
    | .error e => .error e

/-- The text `recipientList` that `_storeTransparentOutputs` builds for the value
`vOutAddresses`, given the vector `recipients` as the pass finds it. -/
def buildRecipientList (recipients : List String) (vOutAddresses : Json F) :
    Except String String :=
  if vOutAddresses.isArray && vOutAddresses.size > 0 then
    match collectRecipients recipients vOutAddresses.items with
    | .ok (first :: others) =>
      .ok (appendRecipients ("\x7b" ++ "\"" ++ first ++ "\"") others ++ "\x7d")
    | .ok [] => .ok ("\x7b" ++ "\x7d")
    | .error e => .error e
  else .ok ("\x7b" ++ "\x7d")

/-- The body of the loop of `_storeTransparentOutputs` for one entry of `vout`. -/
def storeOutput (tx_id : String) (st : OutputsState F) (vOutEntry : Json F) :
    Except String (OutputsState F) := do
  let outputIndex := toUInt64 (← (← vOutEntry.get "n").asLargestInt)
  let currentOutputValue ← (← vOutEntry.get "value").asDouble
  let total_public_output := DoubleOps.add st.total_public_output currentOutputValue
  let vOutAddresses ← (← vOutEntry.get "scriptPubKey").get "addresses"
  let recipientList ← buildRecipientList st.recipients vOutAddresses
  pure
    { currentOutputValue := currentOutputValue
      outputIndex := outputIndex
      recipients := []
      recipientList := ""
      total_public_output := total_public_output
      rows := st.rows ++
        [[.str tx_id, .num outputIndex, .str recipientList, .dbl currentOutputValue]] }

/-- The loop `for (const Json::Value &vOutEntry : outputs)` of `_storeTransparentOutputs`. -/
def storeOutputs (tx_id : String) :
    OutputsState F → List (Json F) → Except String (OutputsState F)
  | st, [] => .ok st
  | st, vOutEntry :: rest =>
    match storeOutput tx_id st vOutEntry with
    | .ok st1 => storeOutputs tx_id st1 rest
    | .error e => .error e

/-- The function `Block::_storeTransparentOutputs`. -/
def _storeTransparentOutputs (tx_id : String) (outputs : Json F) (total_public_output : F)
    (rows : List (Row F)) : Except String (OutputsState F) :=
  let st : OutputsState F := ⟨DoubleOps.zero, 0, [], "", total_public_output, rows⟩
  if outputs.size > 0 then storeOutputs tx_id st outputs.items else .ok st

/-- The variables of `Block::DataToOrmStorageMap` inside its loop over the transactions. -/
structure DecodeState (F : Type) where
  /-- The object `*this`, whose totals the loop updates. -/
  block : Block F
  orm_storage_map : OrmStorageMap F
  currentTransactionIndex : Nat
  isCoinbase : Bool
  /-- The local `transaction_ids_database_representation` of the loop body as the last pass
  built it; it hides the member of the same name. -/
  localTransactionIds : String
  /-- The `(tx_id, output_index)` of the `Database::ExecuteRead` calls, in call order. -/
  lookups : List (String × Nat)

/-- The test `tx["vin"].isArray() && tx["vin"].size() == 1 && tx["vin"][0].isMember("coinbase")`
of `DataToOrmStorageMap`. -/
def isSingleCoinbase (vin : Json F) : Except String Bool :=
  if vin.isArray && vin.size == 1 then do
    (← vin.index 0).isMember "coinbase"
  else pure false

/-- The branch of `DataToOrmStorageMap` on that test: the block's `total_transparent_input`,
the local `isCoinbase` and the lookups made, as the branch leaves them. -/
def blockTransparentInput (lookup : OutputLookup F) (st : DecodeState F) (vin : Json F) :
    Except String (F × Bool × List (String × Nat)) := do
  if (← isSingleCoinbase vin) then
    pure (DoubleOps.zero, true, st.lookups)
  else
    let queryTxId ← (← vin.get "txid").asString
    let queryIndex := toUInt64 (← (← vin.get "vout").asInt)
    let database_read_result ← lookup queryTxId queryIndex
    let total :=
      match database_read_result with
      | some (row :: _) => DoubleOps.add st.block.total_transparent_input row.value
      | _ => st.block.total_transparent_input
    pure (total, st.isCoinbase, st.lookups ++ [(queryTxId, queryIndex)])

/-- The body of the loop of `DataToOrmStorageMap` for one transaction. -/
def decodeTransaction (lookup : OutputLookup F) (transactions_size : Nat) (st : DecodeState F)
    (tx : Json F) : Except String (DecodeState F) :=
  if tx.isNull then
    .error ("Invalid transaction at block height " ++ toString st.block.height ++ ".")
  else do
    let tx_id ← (← tx.get "txid").asString
    let localTransactionIds :=
      "\x7b" ++ ("\"" ++ tx_id ++ "\"") ++
        (if st.currentTransactionIndex < sub64 transactions_size 1 then "," else "") ++ "\x7d"
    let vout ← tx.get "vout"
    let vin ← tx.get "vin"
    let total_outputs := add64 st.block.total_outputs vout.size
    let total_inputs := add64 st.block.total_inputs vin.size
    let total_transparent_output :=
      DoubleOps.add st.block.total_transparent_output (← vout.asDouble)
    let branch ← blockTransparentInput lookup st vin
    let inputs ← _storeTransparentInputs lookup tx_id vin DoubleOps.zero
      st.orm_storage_map.transparent_input branch.2.2
    let outputs ← _storeTransparentOutputs tx_id vout DoubleOps.zero
      st.orm_storage_map.transparent_output
    let current_total_block_public_input := inputs.total_transparent_input
    let current_total_block_public_output := outputs.total_public_output
    let overwintered ← (← tx.get "overwintered").asCString
    let version ← (← tx.get "version").asCString
    let hex ← (← tx.get "hex").asCString
    let row : Row F :=
      [.str tx_id, .str (toString tx.size), .str overwintered, .str version,
        .str (DoubleOps.toStdString current_total_block_public_input),
        .str (DoubleOps.toStdString current_total_block_public_output),
        .str hex, .str st.block.hash, .num st.block.timestamp, .num st.block.height,
        .num vin.size, .num vout.size]
    pure
      { block :=
          { st.block with
            total_outputs := total_outputs
            total_inputs := total_inputs
            total_transparent_input :=
              DoubleOps.add branch.1 current_total_block_public_input
            total_transparent_output :=
              DoubleOps.add total_transparent_output current_total_block_public_output }
        orm_storage_map :=
          { st.orm_storage_map with
            transparent_input := inputs.rows
            transparent_output := outputs.rows
            transaction := st.orm_storage_map.transaction ++ [row] }
        currentTransactionIndex := st.currentTransactionIndex + 1
        isCoinbase := branch.2.1
        localTransactionIds := localTransactionIds
        lookups := inputs.lookups }

/-- The loop `for (const Json::Value &tx : this->transactions)` of `DataToOrmStorageMap`. -/
def decodeTransactions (lookup : OutputLookup F) (transactions_size : Nat) :
    DecodeState F → List (Json F) → Except String (DecodeState F)
  | st, [] => .ok st
  | st, tx :: rest =>
    match decodeTransaction lookup transactions_size st tx with
    | .ok st1 => decodeTransactions lookup transactions_size st1 rest
    | .error e => .error e

/-- The row `DataToOrmStorageMap` appends under the key `block`. -/
def blockRow (b : Block F) : Row F :=
  [.str b.hash, .num b.height, .num b.timestamp, .str b.nonce, .num b.size,
    .num b.num_transactions, .dbl b.total_transparent_output, .num b.difficulty,
    .str b.chainwork, .str b.merkle_root, .num b.version, .str b.bits,
    .str b.transaction_ids_database_representation, .num b.total_outputs, .num b.total_inputs,
    .dbl b.total_transparent_input, .str ""]

/-- The function `Block::DataToOrmStorageMap` on the object `b`.  An exception is caught,
logged and thrown again: the call then returns no map. -/
def DataToOrmStorageMap (lookup : OutputLookup F) (b : Block F) :
    Except String (OrmStorageMap F) :=
  let orm_storage_map : OrmStorageMap F := ⟨[], [], [], []⟩
  let transactions_size := b.transactions.size
  let st0 : DecodeState F := ⟨b, orm_storage_map, 0, false, "", []⟩
  let afterLoop :=
    if b.transactions.isArray && transactions_size > 0 then
      decodeTransactions lookup transactions_size st0 b.transactions.items
    else .ok st0
  match afterLoop with
  | .ok st =>
    .ok { st.orm_storage_map with block := st.orm_storage_map.block ++ [blockRow st.block] }
  | .error e => .error e

/-- The constructor `Block::Block(const Json::Value &rawBlock)` (the name `Block.Block` would
hide the type).  `members` holds the members
the constructor does not initialise, as their declarations in `chain_resource.h` leave them,
and `block` is the member `block`, which the initialiser list does not name and the body
reads.  The initialisers run in the order in which they are written. -/
def Block.construct (members : Block F) (block : Json F) (rawBlock : Json F) :
    Except String (Block F) := do
  let nonce ← (← rawBlock.get "nonce").asCString
  let version ← (← rawBlock.get "version").asUInt64
  let prev_block_hash ← (← rawBlock.get "previousblockhash").asCString
  let next_block_hash ← (← rawBlock.get "nextblockhash").asCString
  let merkle_root ← (← rawBlock.get "merkleroot").asCString
  let timestamp ← (← rawBlock.get "time").asUInt64
  let difficulty ← (← rawBlock.get "difficulty").asUInt64
  let transactions ← rawBlock.get "tx"
  let num_transactions := transactions.size
  let hash ← (← rawBlock.get "hash").asCString
  let height ← (← rawBlock.get "height").asUInt64
  let size ← (← rawBlock.get "size").asUInt64
  let chainwork ← (← rawBlock.get "chainwork").asCString
  let bits ← (← rawBlock.get "bits").asCString
  -- the body: this->block["tx"]
  let tx ← block.get "tx"
  if rawBlock.isNull || !tx.isArray then
    .error "Invalid JSON value for Block(rawBlock)"
  else
    pure
      { members with
        nonce := nonce, version := version, prev_block_hash := prev_block_hash,
        next_block_hash := next_block_hash, merkle_root := merkle_root,
        timestamp := timestamp, difficulty := difficulty, transactions := transactions,
        num_transactions := num_transactions, hash := hash, height := height, size := size,
        chainwork := chainwork, bits := bits }

/-- Decoding a raw block document: construct a `Block` from it, then call
`DataToOrmStorageMap`. -/
def decodeRawBlock (lookup : OutputLookup F) (members : Block F) (block : Json F)
    (rawBlock : Json F) : Except String (OrmStorageMap F) := do
  let b ← Block.construct members block rawBlock
  DataToOrmStorageMap lookup b

/-! ### Reading a transaction document -/

/-- The row a coinbase input with the coinbase text `hex` is claimed to give. -/
def coinbaseRow (tx_id hex : String) : Row F :=
  [.str tx_id, .str "-1", .num 0, .dbl DoubleOps.zero, .str "\x7b\x7d", .str hex]

/-! ### Reading an entry of `vout` -/

/-- The array literal of the store for a list of texts: an opening brace, the double-quoted
elements joined by commas, a closing brace; the bare pair of braces for the empty list. -/
def arrayLiteral (elements : List String) : String :=
  "\x7b" ++ ",".intercalate (elements.map (fun a => "\"" ++ a ++ "\"")) ++ "\x7d"

/-- What an entry of `vout` says: its index `n`, its value and the addresses under
`scriptPubKey.addresses`, in order. -/
structure OutputEntry (F : Type) where
  n : Nat
  value : F
  addresses : List String

/-- The entry `vOutEntry` of a `vout` array says `o`: its member `n` is the integer `o.n`
(within `int64`), its member `value` converts to the double `o.value`, and
`scriptPubKey.addresses` is the array of the texts `o.addresses`, or is absent (null) with
`o.addresses` empty. -/
def readsAs (vOutEntry : Json F) (o : OutputEntry F) : Prop :=
  (vOutEntry.get "n" = .ok (.int o.n) ∧ o.n ≤ 9223372036854775807) ∧
  (∃ value, vOutEntry.get "value" = .ok value ∧ value.asDouble = .ok o.value) ∧
  (∃ scriptPubKey addresses,
    vOutEntry.get "scriptPubKey" = .ok scriptPubKey ∧
    scriptPubKey.get "addresses" = .ok addresses ∧
    (addresses = .arr (o.addresses.map Json.str) ∨ (addresses = .null ∧ o.addresses = [])))

/-- The output row the claim names for an entry. -/
def outputRow (tx_id : String) (o : OutputEntry F) : Row F :=
  [.str tx_id, .num o.n, .str (arrayLiteral o.addresses), .dbl o.value]

end ChainResource

/-! ## Concrete nodes -/

/-- The block document the example nodes answer for the height text `s`. -/
def blockAt (s : String) : Json Int := .obj [("height", .str s)]

/-- A node that has a block at every height. -/
def nodeAllBlocks : List (Json Int) → RpcOutcome Int
  | Json.str s :: _ => .result (blockAt s)
  | _ => .result (.obj [])

/-- A node that has a block at every height except `height`, for which it answers null. -/
def nodeNullAt (height : Nat) : List (Json Int) → RpcOutcome Int
  | Json.str s :: _ => if s = toString height then .result .null else .result (blockAt s)
  | _ => .result (.obj [])

/-- A node that has a block at every height except `height`, for which `getblock` raises a
`JsonRpcException`. -/
def nodeRaisingAt (height : Nat) : List (Json Int) → RpcOutcome Int
  | Json.str s :: _ =>
    if s = toString height then .jsonRpcException "Block height out of range"
    else .result (blockAt s)
  | _ => .result (.obj [])

/-- A node that has a block at every height except `height`, for which it answers a JSON
string; `clear()` throws `Json::LogicError` on it. -/
def nodeTextAt (height : Nat) : List (Json Int) → RpcOutcome Int
  | Json.str s :: _ => if s = toString height then .result (.str "0400") else .result (blockAt s)
  | _ => .result (.obj [])

/-- A worker in flight that stores the chunk `chunkStartHeight .. chunkEndHeight` of a range
sync that tracks checkpoints. -/
def workerOn (chunkStartHeight chunkEndHeight : Nat) : Worker Int :=
  ⟨⟨true, [], chunkStartHeight, chunkEndHeight, chunkStartHeight⟩, true⟩

/-- A checkpoint table holding the one unfinished checkpoint `(100, 199, 137)`. -/
def checkpointAt100 (start : Nat) : Option Checkpoint :=
  if start = 100 then some ⟨100, 199, 137⟩ else none

/-! ## Concrete documents -/

/-- An output lookup that finds the output `("aa", 0)`, worth 5 and paid to one address, and
finds no row for any other key. -/
def lookupOne : OutputLookup Int := fun tx_id output_index =>
  if tx_id = "aa" ∧ output_index = 0 then .ok (some [⟨5, "\x7b\"t1addr\"\x7d"⟩])
  else .ok (some [])

/-- An input that spends the output `("aa", 0)`. -/
def spendingInput : Json Int := .obj [("txid", .str "aa"), ("vout", .int 0)]

/-- A coinbase input. -/
def coinbaseInput : Json Int := .obj [("coinbase", .str "03a1b2")]

/-- A coinbase transaction: one coinbase input, no `vout` member. -/
def coinbaseTx : Json Int :=
  .obj [("hex", .str "0400"), ("overwintered", .str "true"), ("txid", .str "c0"),
    ("version", .str "4"), ("vin", .arr [coinbaseInput])]

/-- A `Block` object holding the one transaction `coinbaseTx`, its totals and its
`transaction_ids_database_representation` as a new object has them. -/
def blockOne : Block Int :=
  { nonce := "00", version := 4, prev_block_hash := "p0", next_block_hash := "n2",
    merkle_root := "m1", timestamp := 1500000000, difficulty := 1,
    transactions := .arr [coinbaseTx], num_transactions := 1, hash := "h1", height := 1,
    size := 300, chainwork := "01", bits := "1d00ffff", total_outputs := 0, total_inputs := 0,
    total_transparent_output := 0, total_transparent_input := 0,
    transaction_ids_database_representation := "" }

/-- The variables of `_storeTransparentInputs` after the inputs `spendingInput`,
`coinbaseInput` of the transaction `"t1"`, decoded with `lookupOne`. -/
def twoInputsDecoded : InputsState Int :=
  { vin_tx_id := "-1", v_out_idx := 0, coinbase := "03a1b2", senders := "\x7b\x7d",
    current_input_value := 0, total_transparent_input := 5,
    rows := [[.str "t1", .str "aa", .num 0, .dbl 0, .str "\x7b\x7d", .str ""],
      [.str "t1", .str "-1", .num 0, .dbl 0, .str "\x7b\x7d", .str "03a1b2"]],
    lookups := [("aa", 0)] }

/-- The map `DataToOrmStorageMap` returns for `blockOne`. -/
def blockOneRows : OrmStorageMap Int :=
  { block := [[.str "h1", .num 1, .num 1500000000, .str "00", .num 300, .num 1, .dbl 0, .num 1,
      .str "01", .str "m1", .num 4, .str "1d00ffff", .str "", .num 0, .num 1, .dbl 0, .str ""]],
    transaction := [[.str "c0", .str "5", .str "true", .str "4", .str "0.000000",
      .str "0.000000", .str "0400", .str "h1", .num 1500000000, .num 1, .num 1, .num 0]],
    transparent_input := [[.str "c0", .str "-1", .num 0, .dbl 0, .str "\x7b\x7d", .str "03a1b2"]],
    transparent_output := [] }

/-- A syncer that is not syncing and has read nothing yet. -/
def idleSyncer : SyncerState := ⟨0, 0, false, 0, 0⟩

/-- A node at tip 5 and an empty store whose database fails the read of the unfinished
checkpoints with a `std::exception`. -/
def databaseDown : Collaborators Int :=
  { CHUNK_SIZE := 10, MAX_CONCURRENT_THREADS := 4, InvalidHeight := 0,
    getblock := nodeAllBlocks, getblockcount := fun _ => .result (.int 5),
    GetCheckpoint := fun _ => none,
    GetUnfinishedCheckpoints := .error "Lost connection to the database",
    GetSyncedBlockCountFromDB := fun _ => 0 }

/-- A node at tip 5 that answers every `getblock` with a text, and an empty store;
`CHUNK_SIZE` is 2. -/
def textNode : Collaborators Int :=
  { CHUNK_SIZE := 2, MAX_CONCURRENT_THREADS := 4, InvalidHeight := 0,
    getblock := fun _ => .result (.str "0400"), getblockcount := fun _ => .result (.int 5),
    GetCheckpoint := fun _ => none, GetUnfinishedCheckpoints := .ok [],
    GetSyncedBlockCountFromDB := fun _ => 0 }

/-- A node at tip 5 that answers null for height 1, and an empty store; `CHUNK_SIZE` is 2. -/
def nullNode : Collaborators Int :=
  { CHUNK_SIZE := 2, MAX_CONCURRENT_THREADS := 4, InvalidHeight := 0,
    getblock := nodeNullAt 1, getblockcount := fun _ => .result (.int 5),
    GetCheckpoint := fun _ => none, GetUnfinishedCheckpoints := .ok [],
    GetSyncedBlockCountFromDB := fun _ => 0 }

/-- A tip query that raises a `JsonRpcException` with the message `what`. -/
def tipRaises (what : String) : Nat → RpcOutcome Int := fun _ => .jsonRpcException what

/-- A tip query that raises "Loading block index" once and answers 7 afterwards. -/
def tipLoadingOnce : Nat → RpcOutcome Int := fun k =>
  if k = 0 then .jsonRpcException "Loading block index..." else .result (.int 7)

/-- The members of a `Block` object that its constructor does not initialise, all zero or
empty; the other fields are set by the constructor. -/
def newBlockMembers : Block Int :=
  { nonce := "", version := 0, prev_block_hash := "", next_block_hash := "", merkle_root := "",
    timestamp := 0, difficulty := 0, transactions := .null, num_transactions := 0, hash := "",
    height := 0, size := 0, chainwork := "", bits := "", total_outputs := 0, total_inputs := 0,
    total_transparent_output := 0, total_transparent_input := 0,
    transaction_ids_database_representation := "" }

/-- A raw block document with every member the constructor reads and the one transaction
`coinbaseTx`: it is not null, its `tx` is an array and no element of `tx` is null. -/
def goodDocument : Json Int :=
  .obj [("bits", .str "1d00ffff"), ("chainwork", .str "01"), ("difficulty", .int 1),
    ("hash", .str "h1"), ("height", .int 1), ("merkleroot", .str "m1"),
    ("nextblockhash", .str "n2"), ("nonce", .str "00"), ("previousblockhash", .str "p0"),
    ("size", .int 300), ("time", .int 1500000000), ("tx", .arr [coinbaseTx]),
    ("version", .int 4)]

/-- A raw block document like `goodDocument` whose `tx` is a text, not an array. -/
def txNotArrayDocument : Json Int :=
  .obj [("bits", .str "1d00ffff"), ("chainwork", .str "01"), ("difficulty", .int 1),
    ("hash", .str "h1"), ("height", .int 1), ("merkleroot", .str "m1"),
    ("nextblockhash", .str "n2"), ("nonce", .str "00"), ("previousblockhash", .str "p0"),
    ("size", .int 300), ("time", .int 1500000000), ("tx", .str "none"),
    ("version", .int 4)]

/-- An entry of `vout` paid to two addresses. -/
def outputToTwo : Json Int :=
  .obj [("n", .int 0), ("scriptPubKey", .obj [("addresses", .arr [.str "t1a", .str "t1b"])]),
    ("value", .int 3)]

/-- An entry of `vout` without addresses. -/
def outputToNone : Json Int :=
  .obj [("n", .int 1), ("scriptPubKey", .obj [("type", .str "nulldata")]), ("value", .int 4)]

section SyncerTheorems

variable {F : Type}

theorem Json.isNull_of_isDocument (v : Json F) (h : v.isDocument = true) : v.isNull = false := by
  cases v <;> simp [Json.isDocument] at h <;> rfl

theorem Json.clear_of_isDocument (v : Json F) (h : v.isDocument = true) :
    ∃ c, v.clear = .ok c := by
  cases v <;> simp [Json.isDocument] at h <;> exact ⟨_, rfl⟩

theorem add64_succ_of_lt {a : Nat} (h : a + 1 < 2 ^ 64) : add64 a 1 = a + 1 := by
  unfold add64
  exact Nat.mod_eq_of_lt h

theorem Effects.with_nil (w : Effects F) :
    ({ w with rpcCalls := w.rpcCalls ++ [], missedBlocks := w.missedBlocks ++ [] } : Effects F)
      = w := by
  cases w
  simp

/-- A run of `DownloadBlocks` over `n` heights from `s`, none of which answers null or a
scalar, returns with one slot per height. -/
theorem DownloadBlocks_run (rpc : List (Json F) → RpcOutcome F) :
    ∀ (n fuel : Nat) (w : Effects F) (dl : List (Json F)) (s e : Nat),
      s + n = e + 1 → e + 1 < 2 ^ 64 →
      (∀ h, s ≤ h → h ≤ e → blockOrRaised rpc h = true) →
      n + 1 ≤ fuel →
      DownloadBlocks rpc fuel w dl s e =
        some (.returned, dl ++ (List.range' s n).map (slotFor rpc),
          { w with
            rpcCalls := w.rpcCalls ++ (List.range' s n).map getblockParams,
            missedBlocks := w.missedBlocks ++ (List.range' s n).filter (raisedAt rpc) }) := by
  intro n
  induction n with
  | zero =>
    intro fuel w dl s e hs _ _ hfuel
    obtain ⟨f, rfl⟩ : ∃ f, fuel = f + 1 := ⟨fuel - 1, by omega⟩
    have hgt : ¬ s ≤ e := by omega
    simp [DownloadBlocks, hgt, Effects.with_nil]
  | succ n ih =>
    intro fuel w dl s e hs he hok hfuel
    obtain ⟨f, rfl⟩ : ∃ f, fuel = f + 1 := ⟨fuel - 1, by omega⟩
    have hle : s ≤ e := by omega
    have hnext : add64 s 1 = s + 1 := add64_succ_of_lt (by omega)
    have hrec := fun w1 dl1 => ih f w1 dl1 (s + 1) e (by omega) he
      (fun h h1 h2 => hok h (by omega) h2) (by omega)
    have hs0 := hok s (Nat.le_refl s) hle
    unfold DownloadBlocks
    simp only [hle, if_true, hnext]
    unfold blockOrRaised at hs0
    cases hr : rpc (getblockParams s) with
    | result v =>
      rw [hr] at hs0
      have hnn : v.isNull = false := Json.isNull_of_isDocument v hs0
      obtain ⟨c, hc⟩ := Json.clear_of_isDocument v hs0
      simp only [hnn, hc, hrec]
      simp [List.range'_succ, slotFor, raisedAt, hr]
    | jsonRpcException m =>
      simp only [hrec]
      simp [List.range'_succ, slotFor, raisedAt, hr]
    | stdException m =>
      simp only [hrec]
      simp [List.range'_succ, slotFor, raisedAt, hr]

/-- With `endRange = 2^64 - 1` the test `startRange <= endRange` never fails: on a node that
answers every call with a document, `DownloadBlocks` does not return. -/
theorem DownloadBlocks_diverges (rpc : List (Json F) → RpcOutcome F)
    (hdoc : ∀ p, ∃ v, rpc p = .result v ∧ v.isDocument = true) :
    ∀ (fuel : Nat) (w : Effects F) (dl : List (Json F)) (s : Nat), s < 2 ^ 64 →
      DownloadBlocks rpc fuel w dl s (2 ^ 64 - 1) = none := by
  intro fuel
  induction fuel with
  | zero => intro w dl s _; rfl
  | succ f ih =>
    intro w dl s hs
    obtain ⟨v, hv, hd⟩ := hdoc (getblockParams s)
    obtain ⟨c, hc⟩ := Json.clear_of_isDocument v hd
    have hle : s ≤ 2 ^ 64 - 1 := by omega
    have hlt : add64 s 1 < 2 ^ 64 := Nat.mod_lt _ (by norm_num)
    unfold DownloadBlocks
    simp only [hle, if_true, hv, Json.isNull_of_isDocument v hd, hc]
    exact ih _ _ _ hlt

theorem nodeAllBlocks_isDocument (p : List (Json Int)) :
    ∃ v, nodeAllBlocks p = .result v ∧ v.isDocument = true := by
  unfold nodeAllBlocks
  split
  · exact ⟨_, rfl, rfl⟩
  · exact ⟨_, rfl, rfl⟩

theorem nodeAllBlocks_blockOrRaised (h : Nat) : blockOrRaised nodeAllBlocks h = true := by
  obtain ⟨v, hv, hd⟩ := nodeAllBlocks_isDocument (getblockParams h)
  unfold blockOrRaised
  rw [hv]
  exact hd

/-! ### Chunk arithmetic -/

theorem chunkEndFor_eq_min {CHUNK_SIZE end_ cs : Nat} (hc : 1 ≤ CHUNK_SIZE) (hcs : cs ≤ end_)
    (hend : end_ < 2 ^ 64 - 1) : chunkEndFor CHUNK_SIZE end_ cs = min end_ (cs + CHUNK_SIZE - 1) := by
  unfold chunkEndFor add64 sub64
  have h1 : cs % 2 ^ 64 = cs := Nat.mod_eq_of_lt (by omega)
  have h2 : (end_ + (2 ^ 64 - cs)) % 2 ^ 64 = end_ - cs := by omega
  rw [h1, h2]
  have h3 : (end_ - cs + 1) % 2 ^ 64 = end_ - cs + 1 := Nat.mod_eq_of_lt (by omega)
  rw [h3]
  by_cases hge : end_ - cs + 1 ≥ CHUNK_SIZE
  · rw [if_pos hge]
    have h4 : (cs + CHUNK_SIZE) % 2 ^ 64 = cs + CHUNK_SIZE := Nat.mod_eq_of_lt (by omega)
    rw [h4]
    omega
  · rw [if_neg hge]
    omega

theorem specChunksFrom_of_gt (CHUNK_SIZE end_ n cs : Nat) (h : end_ < cs) :
    specChunksFrom CHUNK_SIZE end_ n cs = [] := by
  cases n with
  | zero => rfl
  | succ n => simp [specChunksFrom, Nat.not_le.mpr h]

theorem range'_split {cs ce end_ : Nat} (h1 : cs ≤ ce) (h2 : ce ≤ end_) :
    List.range' cs (ce + 1 - cs) ++ List.range' (ce + 1) (end_ + 1 - (ce + 1))
      = List.range' cs (end_ + 1 - cs) := by
  have h := List.range'_append_1 cs (ce + 1 - cs) (end_ + 1 - (ce + 1))
  have e1 : cs + (ce + 1 - cs) = ce + 1 := by omega
  have e2 : end_ + 1 - (ce + 1) + (ce + 1 - cs) = end_ + 1 - cs := by omega
  rw [e1, e2] at h
  exact h

/-- The heights of the listed chunks, one chunk after the other, are `cs .. end`. -/
theorem specChunksFrom_heights {CHUNK_SIZE end_ : Nat} (hc : 1 ≤ CHUNK_SIZE) :
    ∀ (n cs : Nat), end_ + 1 - cs ≤ n →
      (specChunksFrom CHUNK_SIZE end_ n cs).flatMap chunkHeights
        = List.range' cs (end_ + 1 - cs) := by
  intro n
  induction n with
  | zero =>
    intro cs h
    have h0 : end_ + 1 - cs = 0 := by omega
    simp [specChunksFrom, h0]
  | succ n ih =>
    intro cs h
    by_cases hle : cs ≤ end_
    · have hrec := ih (min end_ (cs + CHUNK_SIZE - 1) + 1) (by omega)
      simp only [specChunksFrom, hle, if_true, List.flatMap_cons, hrec, chunkHeights]
      exact range'_split (by omega) (by omega)
    · have h0 : end_ + 1 - cs = 0 := by omega
      simp [specChunksFrom, hle, h0]

/-- Every listed chunk `[a, b]` has `cs <= a <= b <= end`. -/
theorem specChunksFrom_bounds {CHUNK_SIZE end_ : Nat} (hc : 1 ≤ CHUNK_SIZE) :
    ∀ (n cs : Nat) (c : Nat × Nat), c ∈ specChunksFrom CHUNK_SIZE end_ n cs →
      cs ≤ c.1 ∧ c.1 ≤ c.2 ∧ c.2 ≤ end_ := by
  intro n
  induction n with
  | zero => intro cs c h; simp [specChunksFrom] at h
  | succ n ih =>
    intro cs c h
    by_cases hle : cs ≤ end_
    · simp only [specChunksFrom, hle, if_true, List.mem_cons] at h
      rcases h with rfl | h
      · try simp only
        omega
      · have := ih _ c h
        omega
    · simp [specChunksFrom, hle] at h

/-- Each listed chunk ends before the next one starts. -/
theorem specChunksFrom_pairwise {CHUNK_SIZE end_ : Nat} (hc : 1 ≤ CHUNK_SIZE) :
    ∀ (n cs : Nat), (specChunksFrom CHUNK_SIZE end_ n cs).Pairwise (fun a b => a.2 < b.1) := by
  intro n
  induction n with
  | zero => intro cs; simp [specChunksFrom]
  | succ n ih =>
    intro cs
    by_cases hle : cs ≤ end_
    · simp only [specChunksFrom, hle, if_true, List.pairwise_cons]
      refine ⟨?_, ih _⟩
      intro c hcmem
      have := specChunksFrom_bounds hc n _ c hcmem
      try simp only
      omega
    · simp [specChunksFrom, hle]

/-- Every listed chunk but the last holds exactly `CHUNK_SIZE` heights. -/
theorem specChunksFrom_full {CHUNK_SIZE end_ : Nat} (hc : 1 ≤ CHUNK_SIZE) :
    ∀ (n cs : Nat) (c : Nat × Nat), c ∈ (specChunksFrom CHUNK_SIZE end_ n cs).dropLast →
      c.2 + 1 - c.1 = CHUNK_SIZE := by
  intro n
  induction n with
  | zero => intro cs c h; simp [specChunksFrom] at h
  | succ n ih =>
    intro cs c h
    by_cases hle : cs ≤ end_
    · simp only [specChunksFrom, hle, if_true] at h
      by_cases hlast : min end_ (cs + CHUNK_SIZE - 1) + 1 ≤ end_
      · cases hrest : specChunksFrom CHUNK_SIZE end_ n (min end_ (cs + CHUNK_SIZE - 1) + 1) with
        | nil => rw [hrest] at h; simp at h
        | cons d ds =>
          rw [hrest, List.dropLast_cons₂, List.mem_cons] at h
          rcases h with rfl | h
          · try simp only
            omega
          · exact ih _ c (by rw [hrest]; exact h)
      · rw [specChunksFrom_of_gt _ _ _ _ (by omega)] at h
        simp at h
    · simp [specChunksFrom, hle] at h

/-! ### The loop of `DoConcurrentSyncOnRange` -/

/-- With at least one thread allowed and every thread in flight joinable, the admission wait
ends after at most one join, leaving room for a new thread. -/
theorem admission_run {MAX_CONCURRENT_THREADS : Nat} (hM : 1 ≤ MAX_CONCURRENT_THREADS)
    (ts : List (Worker F)) (hj : ∀ t ∈ ts, t.joinable = true)
    (hlen : ts.length ≤ MAX_CONCURRENT_THREADS) (fuel : Nat) (hf : 2 ≤ fuel) :
    ∃ ts1, admission MAX_CONCURRENT_THREADS fuel ts = some ts1 ∧
      (∀ t ∈ ts1, t.joinable = true) ∧ ts1.length < MAX_CONCURRENT_THREADS := by
  obtain ⟨f, rfl⟩ : ∃ f, fuel = f + 2 := ⟨fuel - 2, by omega⟩
  by_cases hfull : ts.length ≥ MAX_CONCURRENT_THREADS
  · cases ts with
    | nil => simp at hfull; omega
    | cons t rest =>
      have ht : t.joinable = true := hj t (List.mem_cons_self _ _)
      have hrest : ∀ u ∈ rest, u.joinable = true := fun u hu => hj u (List.mem_cons_of_mem _ hu)
      have hfilter : List.filter (fun u : Worker F => u.joinable) rest = rest :=
        List.filter_eq_self.mpr hrest
      have hlt : ¬ rest.length ≥ MAX_CONCURRENT_THREADS := by
        simp only [List.length_cons] at hlen
        omega
      refine ⟨rest, ?_, hrest, by omega⟩
      rw [admission, if_pos hfull]
      simp only [joinFirstJoinable, ht, if_true, CheckAndDeleteJoinableProcessingThreads,
        List.filter_cons, Bool.false_eq_true, if_false, hfilter]
      rw [admission, if_neg hlt]
  · refine ⟨ts, ?_, hj, by omega⟩
    rw [admission, if_neg hfull]

theorem join_all_leaves_none (ts : List (Worker F)) :
    CheckAndDeleteJoinableProcessingThreads (JoinAndWaitForAllThreadsToFinish ts) = [] := by
  induction ts with
  | nil => rfl
  | cons t rest ih =>
    simp only [CheckAndDeleteJoinableProcessingThreads, JoinAndWaitForAllThreadsToFinish,
      List.map_cons, List.filter_cons, Bool.false_eq_true, if_false] at ih ⊢
    exact ih

theorem afterChunks_nil (rpc : List (Json F) → RpcOutcome F) (track cpExist : Bool) (start : Nat)
    (w : Effects F) : afterChunks rpc track cpExist start w [] = w := by
  cases w
  simp [afterChunks]

theorem afterChunks_cons (rpc : List (Json F) → RpcOutcome F) (track cpExist : Bool) (start : Nat)
    (w : Effects F) (c : Nat × Nat) (rest : List (Nat × Nat)) :
    afterChunks rpc track cpExist start (afterChunks rpc track cpExist start w [c]) rest
      = afterChunks rpc track cpExist start w (c :: rest) := by
  unfold afterChunks
  cases hb : (!cpExist && track) <;> simp

/-- One pass of the loop on a chunk `[cs, ce]` inside `start .. end` whose downloads all
return: the pass makes the calls of that chunk and goes on with the chunk after it. -/
theorem DoConcurrentSyncOnRange.loop_step (CHUNK_SIZE MAX_CONCURRENT_THREADS : Nat)
    (rpc : List (Json F) → RpcOutcome F) (track cpExist : Bool) (start end_ : Nat)
    (hM : 1 ≤ MAX_CONCURRENT_THREADS) (hend : end_ < 2 ^ 64 - 1)
    (f : Nat) (w : Effects F) (ts : List (Worker F)) (cs ce : Nat)
    (hcs : cs ≤ ce) (hce : ce ≤ end_)
    (hf1 : ce - cs + 2 ≤ f) (hf2 : 2 ≤ f)
    (hok : ∀ h, cs ≤ h → h ≤ ce → blockOrRaised rpc h = true)
    (hj : ∀ t ∈ ts, t.joinable = true) (hlen : ts.length ≤ MAX_CONCURRENT_THREADS) :
    ∃ ts1, (∀ t ∈ ts1, t.joinable = true) ∧ ts1.length ≤ MAX_CONCURRENT_THREADS ∧
      DoConcurrentSyncOnRange.loop CHUNK_SIZE MAX_CONCURRENT_THREADS rpc track cpExist start end_
          (f + 1) w ts cs ce
        = DoConcurrentSyncOnRange.loop CHUNK_SIZE MAX_CONCURRENT_THREADS rpc track cpExist start
            end_ f (afterChunks rpc track cpExist start w [(cs, ce)]) ts1 (ce + 1)
            (chunkEndFor CHUNK_SIZE end_ (ce + 1)) := by
  obtain ⟨ts0, hadm, hj0, hlen0⟩ := admission_run hM ts hj hlen f hf2
  have hle : cs ≤ end_ := by omega
  have hnext : add64 ce 1 = ce + 1 := add64_succ_of_lt (by omega)
  refine ⟨ts0 ++ [⟨chunkCall rpc track cpExist start (cs, ce), true⟩], ?_, ?_, ?_⟩
  · intro t ht
    rcases List.mem_append.mp ht with h | h
    · exact hj0 t h
    · simp only [List.mem_singleton] at h
      rw [h]
  · simp only [List.length_append, List.length_singleton]
    omega
  · rw [DoConcurrentSyncOnRange.loop, if_pos hle]
    simp only []
    rw [DownloadBlocks_run rpc (ce + 1 - cs) f _ [] cs ce (by omega) (by omega) hok (by omega)]
    simp only [hadm, hnext]
    congr 1
    unfold afterChunks chunkCall chunkHeights
    cases hb : (!cpExist && track) <;> simp

/-- From a chunk start `cs` on, with the chunk end the source computes for it, the loop goes
through the chunks the specification lists and returns. -/
theorem DoConcurrentSyncOnRange.loop_run (CHUNK_SIZE MAX_CONCURRENT_THREADS : Nat)
    (rpc : List (Json F) → RpcOutcome F) (track cpExist : Bool) (start end_ : Nat)
    (hc : 1 ≤ CHUNK_SIZE) (hM : 1 ≤ MAX_CONCURRENT_THREADS) (hend : end_ < 2 ^ 64 - 1) :
    ∀ (n fuel : Nat) (w : Effects F) (ts : List (Worker F)) (cs : Nat),
      end_ + 1 - cs ≤ n → end_ + 1 - cs + 3 ≤ fuel →
      (∀ h, cs ≤ h → h ≤ end_ → blockOrRaised rpc h = true) →
      (∀ t ∈ ts, t.joinable = true) → ts.length ≤ MAX_CONCURRENT_THREADS →
      ∃ ts1,
        DoConcurrentSyncOnRange.loop CHUNK_SIZE MAX_CONCURRENT_THREADS rpc track cpExist start
            end_ fuel w ts cs (chunkEndFor CHUNK_SIZE end_ cs)
          = some (.returned, ts1,
              afterChunks rpc track cpExist start w (specChunksFrom CHUNK_SIZE end_ n cs)) := by
  intro n
  induction n with
  | zero =>
    intro fuel w ts cs hn hfuel _ _ _
    obtain ⟨f, rfl⟩ : ∃ f, fuel = f + 1 := ⟨fuel - 1, by omega⟩
    have hgt : ¬ cs ≤ end_ := by omega
    exact ⟨ts, by rw [DoConcurrentSyncOnRange.loop, if_neg hgt, specChunksFrom, afterChunks_nil]⟩
  | succ n ih =>
    intro fuel w ts cs hn hfuel hok hj hlen
    obtain ⟨f, rfl⟩ : ∃ f, fuel = f + 1 := ⟨fuel - 1, by omega⟩
    by_cases hle : cs ≤ end_
    · have hE := chunkEndFor_eq_min hc hle hend
      obtain ⟨ts1, hj1, hlen1, hstep⟩ := DoConcurrentSyncOnRange.loop_step CHUNK_SIZE
        MAX_CONCURRENT_THREADS rpc track cpExist start end_ hM hend f w ts cs (min end_ (cs + CHUNK_SIZE - 1))
        (by omega) (by omega) (by omega) (by omega) (fun h h1 h2 => hok h h1 (by omega)) hj hlen
      obtain ⟨ts2, hrest⟩ := ih f (afterChunks rpc track cpExist start w
        [(cs, min end_ (cs + CHUNK_SIZE - 1))]) ts1 (min end_ (cs + CHUNK_SIZE - 1) + 1)
        (by omega) (by omega) (fun h h1 h2 => hok h (by omega) h2) hj1 hlen1
      refine ⟨ts2, ?_⟩
      rw [hE, hstep, hrest, afterChunks_cons]
      simp [specChunksFrom, hle]
    · refine ⟨ts, ?_⟩
      rw [DoConcurrentSyncOnRange.loop, if_neg hle, specChunksFrom_of_gt _ _ _ _ (by omega),
        afterChunks_nil]

/-- A range sync from `start` for which no checkpoint is stored goes through the chunks the
specification lists, when no download throws. -/
theorem DoConcurrentSyncOnRange_fresh (CHUNK_SIZE MAX_CONCURRENT_THREADS : Nat)
    (rpc : List (Json F) → RpcOutcome F) (GetCheckpoint : Nat → Option Checkpoint)
    (w : Effects F) (track : Bool) (start end_ fuel : Nat)
    (hc : 1 ≤ CHUNK_SIZE) (hM : 1 ≤ MAX_CONCURRENT_THREADS)
    (hend : end_ < 2 ^ 64 - 1) (hcp : GetCheckpoint start = none)
    (hok : ∀ h, start ≤ h → h ≤ end_ → blockOrRaised rpc h = true)
    (hfuel : end_ + 1 - start + 3 ≤ fuel) :
    DoConcurrentSyncOnRange CHUNK_SIZE MAX_CONCURRENT_THREADS rpc GetCheckpoint fuel w track
        start end_
      = some (.returned, afterChunks rpc track false start w (specChunks CHUNK_SIZE start end_)) := by
  obtain ⟨ts1, hrun⟩ := DoConcurrentSyncOnRange.loop_run CHUNK_SIZE MAX_CONCURRENT_THREADS rpc track false
    start end_ hc hM hend (end_ + 1 - start) fuel w [] start (Nat.le_refl _) hfuel hok
    (by simp) (by simp)
  unfold DoConcurrentSyncOnRange
  simp only [hcp, Option.isSome_none, hrun, join_all_leaves_none, List.length_nil,
    Nat.lt_irrefl, if_false, specChunks]

/-- A range sync over a range of at most `CHUNK_SIZE` heights for whose start a checkpoint is
stored downloads one chunk, from the checkpoint's `lastCheckpoint` to `end`. -/
theorem DoConcurrentSyncOnRange_resume (CHUNK_SIZE MAX_CONCURRENT_THREADS : Nat)
    (rpc : List (Json F) → RpcOutcome F) (GetCheckpoint : Nat → Option Checkpoint)
    (w : Effects F) (track : Bool) (start end_ fuel : Nat) (checkpoint : Checkpoint)
    (hc : 1 ≤ CHUNK_SIZE) (hM : 1 ≤ MAX_CONCURRENT_THREADS)
    (hle : start ≤ end_) (hend : end_ < 2 ^ 64 - 1) (hsize : end_ - start + 1 ≤ CHUNK_SIZE)
    (hcp : GetCheckpoint start = some checkpoint) (hlast : checkpoint.lastCheckpoint ≤ end_)
    (hok : ∀ h, checkpoint.lastCheckpoint ≤ h → h ≤ end_ → blockOrRaised rpc h = true)
    (hfuel : end_ - checkpoint.lastCheckpoint + 4 ≤ fuel) :
    DoConcurrentSyncOnRange CHUNK_SIZE MAX_CONCURRENT_THREADS rpc GetCheckpoint fuel w track
        start end_
      = some (.returned,
          afterChunks rpc track true start w [(checkpoint.lastCheckpoint, end_)]) := by
  obtain ⟨f, rfl⟩ : ∃ f, fuel = f + 2 := ⟨fuel - 2, by omega⟩
  have hE : chunkEndFor CHUNK_SIZE end_ start = end_ := by
    rw [chunkEndFor_eq_min hc hle hend]
    omega
  obtain ⟨ts1, _, _, hstep⟩ := DoConcurrentSyncOnRange.loop_step CHUNK_SIZE
    MAX_CONCURRENT_THREADS rpc track true start end_ hM hend (f + 1) w [] checkpoint.lastCheckpoint end_ hlast
    (Nat.le_refl _) (by omega) (by omega) hok (by simp) (by simp)
  have hgt : ¬ end_ + 1 ≤ end_ := by omega
  unfold DoConcurrentSyncOnRange
  simp only [hcp, Option.isSome_some, hE, hstep]
  rw [DoConcurrentSyncOnRange.loop, if_neg hgt]
  simp only [join_all_leaves_none, List.length_nil, Nat.lt_irrefl, if_false]

/-- An exception of the download with a worker in flight ends the process.  A node answers
a string for one height of the range 0..5, chunks of 2.  When the height is 1 the first
download throws `Json::LogicError` before any thread exists and the exception leaves
`DoConcurrentSyncOnRange`; when it is 3 the worker of chunk 0..1 is joinable while the
exception unwinds, and `std::terminate` runs. -/
theorem DoConcurrentSyncOnRange_throw_with_worker :
    (DoConcurrentSyncOnRange 2 4 (nodeTextAt 1) (fun _ => none) 10 Effects.none false 0 5).map
        Prod.fst
      = some (.threw (.stdException "in Json::Value::clear(): requires complex value")) ∧
    (DoConcurrentSyncOnRange 2 4 (nodeTextAt 3) (fun _ => none) 10 Effects.none false 0 5).map
        Prod.fst
      = some (.threw .terminate) :=
  ⟨rfl, rfl⟩

/-! ### C1: the chunks of a range sync -/

/-- With `MAX_CONCURRENT_THREADS = 0` the admission wait never ends, so the loop never
returns normally once it has a chunk to hand over. -/
theorem admission_zero_diverges (fuel : Nat) (ts : List (Worker F)) (hts : ts = []) :
    admission 0 fuel ts = none := by
  subst hts
  induction fuel with
  | zero => rfl
  | succ f ih =>
    rw [admission]
    simp only [List.length_nil, ge_iff_le, Nat.le_refl, if_true, joinFirstJoinable]
    exact ih

/-- C1, as stated, fails at `CHUNK_SIZE = 1`, `start = 0`, `end = 2^64 - 1`: there
`end - start + 1` wraps to 0, so the first chunk end is `end` and not
`min(end, start + CHUNK_SIZE - 1) = 0`, and the download of that chunk never returns: no chunk
is ever handed to a worker.  It also fails, for `start = 0`, `end = 250`, `CHUNK_SIZE = 100`,
when `MAX_CONCURRENT_THREADS` is 0 (the admission wait before the first worker never ends) and
when the node answers null for height 42 (the download of the first chunk throws and no chunk
is handed to a worker). -/
theorem C1_counterexample :
    chunkEndFor 1 (2 ^ 64 - 1) 0 = 2 ^ 64 - 1 ∧
    (¬ ∃ fuel r, DoConcurrentSyncOnRange 1 4 nodeAllBlocks (fun _ => none) fuel Effects.none true
        0 (2 ^ 64 - 1) = some r) ∧
    (¬ ∃ fuel w1, DoConcurrentSyncOnRange 100 0 nodeAllBlocks (fun _ => none) fuel Effects.none
        true 0 250 = some (.returned, w1)) ∧
    (DoConcurrentSyncOnRange 100 4 (nodeNullAt 42) (fun _ => none) 300 Effects.none true
        0 250).map (fun r => (r.1, r.2.storeChunkCalls.length))
      = some (.threw .exceptionPointer, 0) := by
  have hE : chunkEndFor 1 (2 ^ 64 - 1) 0 = 2 ^ 64 - 1 := by decide
  refine ⟨hE, ?_, ?_, by rfl⟩
  · rintro ⟨fuel, r, h⟩
    unfold DoConcurrentSyncOnRange at h
    simp only [hE, Option.isSome_none] at h
    cases fuel with
    | zero => simp [DoConcurrentSyncOnRange.loop] at h
    | succ f =>
      rw [DoConcurrentSyncOnRange.loop] at h
      simp only [Nat.zero_le, if_true] at h
      rw [DownloadBlocks_diverges nodeAllBlocks nodeAllBlocks_isDocument f _ _ 0 (by norm_num)]
        at h
      simp at h
  · rintro ⟨fuel, w1, h⟩
    unfold DoConcurrentSyncOnRange at h
    simp only [Option.isSome_none] at h
    cases fuel with
    | zero => simp [DoConcurrentSyncOnRange.loop] at h
    | succ f =>
      rw [DoConcurrentSyncOnRange.loop] at h
      simp only [Nat.zero_le, if_true, admission_zero_diverges f [] rfl] at h
      split at h
      · simp at h
      · simp at h
      · rename_i heq
        split at heq <;> simp at heq

/-- C1 (amended): for every `CHUNK_SIZE >= 1`, `MAX_CONCURRENT_THREADS >= 1` and
`start <= end < 2^64 - 1` with no checkpoint stored for `start`, on a run in which no download
throws (every `getblock` call for a height of the range returns a block document or raises),
`DoConcurrentSyncOnRange` returns, and the chunks `[cs, ce]` it has downloaded and handed to a
worker are, in order, those of the specification: `cs_0 = start`,
`ce_k = min(end, cs_k + CHUNK_SIZE - 1)`, `cs_(k+1) = ce_k + 1`, stopping when `cs > end`.  Each
worker gets the slots of the heights `cs .. ce`.  The chunks are pairwise disjoint (each ends
before the next starts), their heights together are exactly `start .. end`, and every chunk
but the last holds exactly `CHUNK_SIZE` heights. -/
theorem C1_range_sync_chunks (CHUNK_SIZE MAX_CONCURRENT_THREADS : Nat)
    (rpc : List (Json F) → RpcOutcome F) (GetCheckpoint : Nat → Option Checkpoint)
    (w : Effects F) (track : Bool) (start end_ fuel : Nat)
    (hc : 1 ≤ CHUNK_SIZE) (hM : 1 ≤ MAX_CONCURRENT_THREADS)
    (hle : start ≤ end_) (hend : end_ < 2 ^ 64 - 1) (hcp : GetCheckpoint start = none)
    (hnode : ∀ h, start ≤ h → h ≤ end_ → blockOrRaised rpc h = true)
    (hfuel : end_ - start + 4 ≤ fuel) :
    ∃ w1,
      DoConcurrentSyncOnRange CHUNK_SIZE MAX_CONCURRENT_THREADS rpc GetCheckpoint fuel w track
          start end_ = some (.returned, w1) ∧
      w1.storeChunkCalls
        = w.storeChunkCalls ++
          (specChunks CHUNK_SIZE start end_).map (fun c =>
            ⟨track, (chunkHeights c).map (slotFor rpc), c.1, c.2, if track then c.1 else start⟩) ∧
      w1.rpcCalls
        = w.rpcCalls ++
          ((specChunks CHUNK_SIZE start end_).flatMap chunkHeights).map getblockParams ∧
      w1.createdCheckpoints
        = w.createdCheckpoints ++ (if track then specChunks CHUNK_SIZE start end_ else []) ∧
      (specChunks CHUNK_SIZE start end_).flatMap chunkHeights
        = List.range' start (end_ - start + 1) ∧
      (specChunks CHUNK_SIZE start end_).Pairwise (fun a b => a.2 < b.1) ∧
      (∀ c ∈ specChunks CHUNK_SIZE start end_, start ≤ c.1 ∧ c.1 ≤ c.2 ∧ c.2 ≤ end_) ∧
      (∀ c ∈ (specChunks CHUNK_SIZE start end_).dropLast, c.2 + 1 - c.1 = CHUNK_SIZE) := by
  refine ⟨_, DoConcurrentSyncOnRange_fresh CHUNK_SIZE MAX_CONCURRENT_THREADS rpc GetCheckpoint w track start end_ fuel hc hM hend
    hcp hnode (by omega), ?_, rfl, ?_, ?_, specChunksFrom_pairwise hc _ _,
    specChunksFrom_bounds hc _ _, specChunksFrom_full hc _ _⟩
  · simp only [afterChunks]
    congr 1
    apply List.map_congr_left
    intro c _
    cases track <;> rfl
  · simp only [afterChunks]
    cases track <;> simp
  · have h := @specChunksFrom_heights CHUNK_SIZE end_ hc
      (end_ + 1 - start) start (Nat.le_refl _)
    unfold specChunks
    rw [h]
    congr 1
    omega

/-- C1 at `start = 0`, `end = 250`, `CHUNK_SIZE = 100`: the chunks are `[0,99]`, `[100,199]`,
`[200,250]`. -/
theorem C1_range_sync_chunks_witness :
    specChunks 100 0 250 = [(0, 99), (100, 199), (200, 250)] ∧
    ∃ w1 : Effects Int,
      DoConcurrentSyncOnRange 100 4 nodeAllBlocks (fun _ => none) 254 Effects.none true 0 250
        = some (.returned, w1) ∧
      w1.storeChunkCalls
        = [] ++
          (specChunks 100 0 250).map (fun c =>
            ⟨true, (chunkHeights c).map (slotFor nodeAllBlocks), c.1, c.2,
              if true = true then c.1 else 0⟩) ∧
      w1.rpcCalls = [] ++ ((specChunks 100 0 250).flatMap chunkHeights).map getblockParams ∧
      w1.createdCheckpoints = [] ++ (if true = true then specChunks 100 0 250 else []) ∧
      (specChunks 100 0 250).flatMap chunkHeights = List.range' 0 (250 - 0 + 1) ∧
      (specChunks 100 0 250).Pairwise (fun a b => a.2 < b.1) ∧
      (∀ c ∈ specChunks 100 0 250, 0 ≤ c.1 ∧ c.1 ≤ c.2 ∧ c.2 ≤ 250) ∧
      (∀ c ∈ (specChunks 100 0 250).dropLast, c.2 + 1 - c.1 = 100) :=
  ⟨by decide,
    C1_range_sync_chunks 100 4 nodeAllBlocks (fun _ => none) Effects.none true 0 250 254
      (by decide) (by decide) (by decide) (by norm_num) rfl
      (fun h _ _ => nodeAllBlocks_blockOrRaised h) (by decide)⟩

/-! ### C2: resuming from a checkpoint -/

/-- C2 fails on the code: with the checkpoint `(100, 199, 137)` stored and
`CHUNK_SIZE = 100`, the resume pass sets the start cursor to `lastCheckpoint = 137`, not to
138: it asks the node for the heights 137..199, height 137 again, and hands the worker the
chunk `[137, 199]`. -/
theorem C2_resume_repeats_last_committed :
    ∃ w1 : Effects Int,
      SyncUnfinishedCheckpoints 100 4 nodeAllBlocks checkpointAt100 100 Effects.none
          [⟨100, 199, 137⟩] = some (.returned, w1) ∧
      w1.rpcCalls = (List.range' 137 63).map getblockParams ∧
      w1.storeChunkCalls.map (fun a => (a.chunkStartHeight, a.chunkEndHeight, a.resumeHeight))
        = [(137, 199, 100)] ∧
      w1.createdCheckpoints = [] := by
  have h := DoConcurrentSyncOnRange_resume 100 4
    nodeAllBlocks checkpointAt100 Effects.none true 100 199 100 ⟨100, 199, 137⟩ (by decide)
    (by decide) (by decide) (by norm_num) (by decide) rfl (by decide)
    (fun h _ _ => nodeAllBlocks_blockOrRaised h) (by decide)
  refine ⟨afterChunks nodeAllBlocks true true 100 Effects.none [(137, 199)], ?_, ?_, ?_, ?_⟩
  · simp only [SyncUnfinishedCheckpoints, h]
  · simp [afterChunks, chunkHeights, Effects.none]
  · simp [afterChunks, chunkCall, Effects.none]
  · simp [afterChunks, Effects.none]

/-! ### C3: the path `Sync` takes -/

/-- The height loop of `Sync` appends the heights `i .. bound - 1`, ascending. -/
theorem Sync.collectHeights_eq (bound : Nat) :
    ∀ (k i : Nat) (heights : List Nat), bound - i = k →
      Sync.collectHeights bound i heights = heights ++ List.range' i (bound - i) := by
  intro k
  induction k with
  | zero =>
    intro i heights hk
    have hge : ¬ i < bound := by omega
    rw [Sync.collectHeights, if_neg hge, hk]
    simp
  | succ k ih =>
    intro i heights hk
    have hlt : i < bound := by omega
    rw [Sync.collectHeights, if_pos hlt, ih (i + 1) _ (by omega), hk]
    have e : bound - (i + 1) = k := by omega
    rw [e, List.range'_succ]
    simp

/-- C3, as stated, fails where the arithmetic of `Sync` wraps.  With `chain_tip = 2^64 - 1`
and `latest_synced = 2^64 - 3` (`CHUNK_SIZE = 10`) the bound `latestBlockCount + 1` of the
height loop is 0 and list sync runs on the empty list, not on the two new heights.  With
`latest_synced = 2^32 - 1` and `chain_tip = 2^32 + 99` (`CHUNK_SIZE = 100`) the `uint` start
of the range sync is 0, not `latest_synced + 1 = 2^32`.  With `latest_synced = 2^64 - 1` and
`chain_tip = 5` (`CHUNK_SIZE = 10`) list sync runs on the heights 0..5, where no height lies
between `latest_synced + 1` and `chain_tip`. -/
theorem C3_counterexample :
    Sync.newBlocks 10 (2 ^ 64 - 3) (2 ^ 64 - 1) = .byChunk [] ∧
    Sync.newBlocks 100 (2 ^ 32 - 1) (2 ^ 32 + 99) = .byRange true 0 (2 ^ 32 + 99) ∧
    Sync.newBlocks 10 (2 ^ 64 - 1) 5 = .byChunk [0, 1, 2, 3, 4, 5] := by
  refine ⟨?_, ?_, ?_⟩
  · have h1 : sub64 (2 ^ 64 - 1) (2 ^ 64 - 3) = 2 := by decide
    have h2 : add64 (2 ^ 64 - 1) 1 = 0 := by decide
    rw [Sync.newBlocks]
    simp only [h1, h2]
    rw [Sync.collectHeights]
    simp
  · have h1 : sub64 (2 ^ 32 + 99) (2 ^ 32 - 1) = 100 := by decide
    rw [Sync.newBlocks]
    simp only [h1]
    simp
    decide
  · have h1 : sub64 5 (2 ^ 64 - 1) = 6 := by decide
    have h2 : add64 (2 ^ 64 - 1) 1 = 0 := by decide
    have h3 : add64 5 1 = 6 := by decide
    rw [Sync.newBlocks]
    simp only [h1, h2, h3]
    rw [Sync.collectHeights_eq 6 6 0 [] rfl]
    decide

/-- C3 (amended): let `delta = (chain_tip - latest_synced) mod 2^64` for the two cursors
`Sync` has read.  If `delta = 0`, `Sync` starts neither a range sync nor a list sync.  If
`delta >= CHUNK_SIZE` (and `delta` is not 0) and `latest_synced + 1 < 2^32`, it runs range sync
once, with checkpoint tracking enabled, `start = 0` when `latest_synced = 0` and
`latest_synced + 1` otherwise, and `end = chain_tip`.  Otherwise, when `chain_tip` and
`latest_synced` are below `2^64 - 1`, it runs list sync once, on the ascending list of the
heights `latest_synced + 1, ..., chain_tip`. -/
theorem C3_sync_path (CHUNK_SIZE latest_synced chain_tip : Nat) :
    (sub64 chain_tip latest_synced = 0 →
      Sync.newBlocks CHUNK_SIZE latest_synced chain_tip = .noNewBlocks) ∧
    (sub64 chain_tip latest_synced ≠ 0 → CHUNK_SIZE ≤ sub64 chain_tip latest_synced →
      latest_synced + 1 < 2 ^ 32 →
      Sync.newBlocks CHUNK_SIZE latest_synced chain_tip
        = .byRange true (if latest_synced = 0 then 0 else latest_synced + 1) chain_tip) ∧
    (sub64 chain_tip latest_synced ≠ 0 → sub64 chain_tip latest_synced < CHUNK_SIZE →
      latest_synced < 2 ^ 64 - 1 → chain_tip < 2 ^ 64 - 1 →
      Sync.newBlocks CHUNK_SIZE latest_synced chain_tip
        = .byChunk (List.range' (latest_synced + 1) (chain_tip - latest_synced))) := by
  refine ⟨?_, ?_, ?_⟩
  · intro h0
    simp [Sync.newBlocks, h0]
  · intro h0 hge h32
    have hadd : add64 latest_synced 1 = latest_synced + 1 := add64_succ_of_lt (by omega)
    simp only [Sync.newBlocks, h0, if_false, ge_iff_le, hge, if_true, hadd]
    congr 1
    unfold toUInt32
    by_cases hz : latest_synced = 0
    · simp [hz]
    · simp only [hz, if_false]
      exact Nat.mod_eq_of_lt h32
  · intro h0 hlt hl1 ht1
    have hnge : ¬ sub64 chain_tip latest_synced ≥ CHUNK_SIZE := by omega
    have hadd1 : add64 latest_synced 1 = latest_synced + 1 := add64_succ_of_lt (by omega)
    have hadd2 : add64 chain_tip 1 = chain_tip + 1 := add64_succ_of_lt (by omega)
    simp only [Sync.newBlocks, h0, if_false, hnge, hadd1, hadd2]
    rw [Sync.collectHeights_eq (chain_tip + 1) _ (latest_synced + 1) [] rfl]
    simp

/-- C3 for an empty store, tip 5 and `CHUNK_SIZE = 10`: list sync on the heights 1..5. -/
theorem C3_sync_path_witness : Sync.newBlocks 10 0 5 = .byChunk [1, 2, 3, 4, 5] :=
  (C3_sync_path 10 0 5).2.2 (by decide) (by decide) (by norm_num) (by norm_num)

/-! ### C4: `DownloadBlocks` on blocks and RPC exceptions -/

/-- C4, as stated, fails at `start = end = 2^64 - 1`: `startRange++` wraps to 0, the loop test
stays true, and `DownloadBlocks` never returns its `end - start + 1 = 1` slot, even on a node
that has every block. -/
theorem C4_counterexample :
    ¬ ∃ fuel r, DownloadBlocks nodeAllBlocks fuel Effects.none [] (2 ^ 64 - 1) (2 ^ 64 - 1)
      = some r := by
  rintro ⟨fuel, r, h⟩
  rw [DownloadBlocks_diverges nodeAllBlocks nodeAllBlocks_isDocument fuel _ _ _ (by norm_num)] at h
  exact Option.noConfusion h

/-- C4 (amended): for `start <= end < 2^64 - 1`, when each `getblock` call for a height of the
range returns a block document or raises a `JsonRpcException`, `DownloadBlocks` returns, having
appended exactly `end - start + 1` slots, slot `i` being the block returned for `start + i`, or
null when that call raised; it has called `getblock` for every height of the range, in order,
and recorded as missed exactly the heights whose call raised. -/
theorem C4_DownloadBlocks_slots (rpc : List (Json F) → RpcOutcome F) (w : Effects F)
    (downloadBlocks : List (Json F)) (start end_ fuel : Nat)
    (hle : start ≤ end_) (hend : end_ < 2 ^ 64 - 1)
    (hnode : ∀ h, start ≤ h → h ≤ end_ →
      (∃ v, rpc (getblockParams h) = .result v ∧ v.isDocument = true) ∨
      (∃ m, rpc (getblockParams h) = .jsonRpcException m))
    (hfuel : end_ - start + 2 ≤ fuel) :
    ∃ slots w1,
      DownloadBlocks rpc fuel w downloadBlocks start end_
        = some (.returned, downloadBlocks ++ slots, w1) ∧
      slots.length = end_ - start + 1 ∧
      (∀ i, i < end_ - start + 1 → slots.get? i = some (slotFor rpc (start + i))) ∧
      w1.rpcCalls = w.rpcCalls ++ (List.range' start (end_ - start + 1)).map getblockParams ∧
      w1.missedBlocks
        = w.missedBlocks ++ (List.range' start (end_ - start + 1)).filter (raisedAt rpc) ∧
      w1.createdCheckpoints = w.createdCheckpoints ∧ w1.storeChunkCalls = w.storeChunkCalls := by
  have hok : ∀ h, start ≤ h → h ≤ end_ → blockOrRaised rpc h = true := by
    intro h h1 h2
    unfold blockOrRaised
    rcases hnode h h1 h2 with ⟨v, hv, hd⟩ | ⟨m, hm⟩
    · rw [hv]; exact hd
    · rw [hm]
  refine ⟨_, _, DownloadBlocks_run rpc (end_ - start + 1) fuel w downloadBlocks start end_
    (by omega) (by omega) hok (by omega), by simp, ?_, rfl, rfl, rfl, rfl⟩
  intro i hi
  simp [List.get?_eq_getElem?, List.getElem?_map, List.getElem?_range' _ _ hi]

/-- C4 at heights 7..9 of a node whose call for height 8 raises: three slots, the middle one
null, and 8 recorded as missed. -/
theorem C4_DownloadBlocks_slots_witness :
    ∃ slots w1,
      DownloadBlocks (nodeRaisingAt 8) 10 Effects.none [] 7 9 = some (.returned, [] ++ slots, w1) ∧
      slots.length = 9 - 7 + 1 ∧
      (∀ i, i < 9 - 7 + 1 → slots.get? i = some (slotFor (nodeRaisingAt 8) (7 + i))) ∧
      w1.rpcCalls = [] ++ (List.range' 7 (9 - 7 + 1)).map getblockParams ∧
      w1.missedBlocks = [] ++ (List.range' 7 (9 - 7 + 1)).filter (raisedAt (nodeRaisingAt 8)) ∧
      w1.createdCheckpoints = [] ∧ w1.storeChunkCalls = [] :=
  C4_DownloadBlocks_slots (nodeRaisingAt 8) Effects.none [] 7 9 10 (by decide) (by norm_num)
    (by
      intro h h1 h2
      have h3 : h = 7 ∨ h = 8 ∨ h = 9 := by omega
      rcases h3 with rfl | rfl | rfl
      · exact Or.inl ⟨_, rfl, rfl⟩
      · exact Or.inr ⟨_, rfl⟩
      · exact Or.inl ⟨_, rfl, rfl⟩)
    (by decide)

/-! ### C5: `DownloadBlocks` on a null answer -/

/-- C5 fails on the code: at heights 41..43 of a node that answers null for 42, the
`throw new std::exception()` leaves `DownloadBlocks` as an unhandled `std::exception*`: the
block of 41 is the only slot, no height is recorded as missed, and `getblock` is never called
for 43. -/
theorem C5_null_answer_aborts :
    DownloadBlocks (nodeNullAt 42) 10 Effects.none [] 41 43
      = some (.threw .exceptionPointer, [blockAt "41"],
          { rpcCalls := [getblockParams 41, getblockParams 42], missedBlocks := [],
            createdCheckpoints := [], storeChunkCalls := [] }) := by
  rfl

/-! ### C6: `DownloadBlocksFromHeights` -/

/-- C6 fails on the code: for the heights 1, 2 (`CHUNK_SIZE = 10`) on a node whose call for
height 1 raises, `DownloadBlocksFromHeights` appends one slot, the block of height 2, where
the claim has two slots with null first.  On a node that answers null for height 1 it appends
no slot for that height either, and sends the parameters of height 1 again with the next
call. -/
theorem C6_failed_height_leaves_no_slot :
    (DownloadBlocksFromHeights 10 (nodeRaisingAt 1) Effects.none [] [1, 2]).2.1
      = [blockAt "2"] ∧
    (DownloadBlocksFromHeights 10 (nodeNullAt 1) Effects.none [] [1, 2]).2.1 = [] ∧
    (DownloadBlocksFromHeights 10 (nodeNullAt 1) Effects.none [] [1, 2]).2.2.rpcCalls
      = [[.str "1", .int 2], [.str "1", .int 2, .str "2", .int 2]] :=
  ⟨rfl, rfl, rfl⟩

/-! ### C12: the flag `isSyncing` after an exception -/

theorem LoadTotalBlockCountFromChain_isSyncing [DoubleOps F] (getblockcount : Nat → RpcOutcome F) :
    ∀ (fuel : Nat) (s s1 : SyncerState),
      LoadTotalBlockCountFromChain getblockcount fuel s = some (.returned s1) →
      s1.isSyncing = s.isSyncing := by
  intro fuel
  induction fuel with
  | zero => intro s s1 h; simp [LoadTotalBlockCountFromChain] at h
  | succ f ih =>
    intro s s1 h
    rw [LoadTotalBlockCountFromChain] at h
    simp only [] at h
    split at h
    · split at h
      · simp only [Option.some.injEq, Ended.returned.injEq] at h
        subst h
        rfl
      · simp at h
    · split at h
      · split at h
        · exact Option.noConfusion h
        · have := ih _ _ h
          rw [this]
      · simp only [Option.some.injEq, Ended.returned.injEq] at h
        subst h
        rfl
    · simp at h

/-- Whenever the handler of `Sync` has caught an exception, `Sync` returns with `isSyncing`
still set. -/
theorem Sync_caught_isSyncing [DoubleOps F] (env : Collaborators F) (fuel : Nat)
    (s s1 : SyncerState) (w w1 : Effects F) (what : String)
    (h : Sync env fuel s w = some (.returned (some what), s1, w1)) : s1.isSyncing = true := by
  unfold Sync at h
  simp only [] at h
  split at h
  · simp only [Option.some.injEq, Prod.mk.injEq] at h
    rw [← h.2.1]
  · split at h
    · exact Option.noConfusion h
    · simp only [Option.some.injEq, Prod.mk.injEq] at h
      rw [← h.2.1]
    · split at h
      · exact Option.noConfusion h
      · simp [Sync.handler] at h
      · rename_i s2 hload
        have hflag := LoadTotalBlockCountFromChain_isSyncing _ _ _ _ hload
        split at h
        · simp at h
        · split at h
          · exact Option.noConfusion h
          · simp only [Option.some.injEq, Prod.mk.injEq] at h
            rw [← h.2.1]
            simpa [LoadSyncedBlockCountFromDB] using hflag
          · simp at h
        · split at h
          · simp only [Option.some.injEq, Prod.mk.injEq] at h
            rw [← h.2.1]
            simpa [LoadSyncedBlockCountFromDB] using hflag
          · simp at h

/-- C12 fails on the code.  With a database that fails the read of the unfinished checkpoints
(node at tip 5, empty store), `Sync` catches the exception and returns with `isSyncing` still
true; the next `ShouldSyncWallet` then answers false, "already syncing", although
`latest_synced = 0 < chain_tip = 5`: on the same node and store an idle syncer is told true.
The same holds when the exception comes from a download (a `getblock` answer that is a text
makes `clear()` throw); and a null answer throws a pointer that `Sync` does not catch at
all. -/
theorem C12_flag_left_set_after_exception :
    Sync databaseDown 10 idleSyncer Effects.none
      = some (.returned (some "Lost connection to the database"),
          { idleSyncer with isSyncing := true }, Effects.none) ∧
    ShouldSyncWallet databaseDown 10 { idleSyncer with isSyncing := true }
      = some (.returned (false, { idleSyncer with isSyncing := true })) ∧
    ShouldSyncWallet databaseDown 10 idleSyncer
      = some (.returned (true, ⟨0, 5, false, 1, 1⟩)) ∧
    (Sync textNode 10 idleSyncer Effects.none).map (fun r => (r.1, r.2.1.isSyncing))
      = some (.returned (some "in Json::Value::clear(): requires complex value"), true) ∧
    (Sync nullNode 10 idleSyncer Effects.none).map (fun r => (r.1, r.2.1.isSyncing))
      = some (.uncaught .exceptionPointer, true) :=
  ⟨rfl, rfl, rfl, rfl, rfl⟩

/-! ### C13: the tip query -/

/-- A `JsonRpcException` of the tip query whose message does not have "Loading block index"
is swallowed: the call returns and `latestBlockCount` is as it was. -/
theorem LoadTotalBlockCountFromChain_swallows [DoubleOps F] (getblockcount : Nat → RpcOutcome F)
    (fuel : Nat) (s : SyncerState) (what : String)
    (hraise : getblockcount s.tipQueries = .jsonRpcException what)
    (hother : containsText what "Loading block index" = false) :
    LoadTotalBlockCountFromChain getblockcount (fuel + 1) s
      = some (.returned { s with tipQueries := s.tipQueries + 1 }) := by
  rw [LoadTotalBlockCountFromChain]
  simp [hraise, hother]

/-- C13 fails on the code: when `getblockcount` raises the `JsonRpcException`
"Connection refused", `LoadTotalBlockCountFromChain` returns normally and leaves
`latestBlockCount` at its previous value 42; it is another `std::exception` that ends the
process with `exit(1)`, and "Loading block index" that is asked again. -/
theorem C13_other_rpc_exception_is_swallowed :
    LoadTotalBlockCountFromChain (tipRaises "Connection refused") 5 ⟨40, 42, false, 0, 0⟩
      = some (.returned ⟨40, 42, false, 1, 0⟩) ∧
    containsText "Connection refused" "Loading block index" = false ∧
    LoadTotalBlockCountFromChain (fun _ => (.stdException "bad alloc" : RpcOutcome Int)) 5
        ⟨40, 42, false, 0, 0⟩
      = some (.exited 1) ∧
    LoadTotalBlockCountFromChain tipLoadingOnce 5 ⟨40, 42, false, 0, 0⟩
      = some (.returned ⟨40, 7, false, 2, 0⟩) :=
  ⟨rfl, rfl, rfl, rfl⟩

/-! ### C14: the workers in flight -/

/-- The loop of `DoConcurrentSyncOnRange` is a pass followed by the loop. -/
theorem DoConcurrentSyncOnRange.loop_succ (CHUNK_SIZE MAX_CONCURRENT_THREADS : Nat)
    (rpc : List (Json F) → RpcOutcome F) (track cpExist : Bool) (start end_ fuel : Nat)
    (st : RangeLoopState F) :
    DoConcurrentSyncOnRange.loop CHUNK_SIZE MAX_CONCURRENT_THREADS rpc track cpExist start end_
        (fuel + 1) st.w st.processingThreads st.chunkStartPoint st.chunkEndPoint
      = if st.chunkStartPoint ≤ end_ then
          match DoConcurrentSyncOnRange.pass CHUNK_SIZE MAX_CONCURRENT_THREADS rpc track cpExist
              start end_ fuel st with
          | none => none
          | some (.error (e, w2)) =>
            some (.threw (unwindPast st.processingThreads e), st.processingThreads, w2)
          | some (.ok st1) =>
            DoConcurrentSyncOnRange.loop CHUNK_SIZE MAX_CONCURRENT_THREADS rpc track cpExist
              start end_ fuel st1.w st1.processingThreads st1.chunkStartPoint st1.chunkEndPoint
        else some (.returned, st.processingThreads, st.w) := by
  rw [DoConcurrentSyncOnRange.loop]
  by_cases hle : st.chunkStartPoint ≤ end_
  · simp only [hle, if_true, DoConcurrentSyncOnRange.pass]
    split
    · rfl
    · rfl
    · split
      · rfl
      · rfl
  · simp only [hle, if_false]

/-- The states `afterPasses` gives are the states the loop goes through: the loop run from
the start is the loop run from the state after `k` passes. -/
theorem DoConcurrentSyncOnRange.loop_afterPasses (CHUNK_SIZE MAX_CONCURRENT_THREADS : Nat)
    (rpc : List (Json F) → RpcOutcome F) (track cpExist : Bool) (start end_ : Nat) :
    ∀ (k fuel : Nat) (st st1 : RangeLoopState F),
      DoConcurrentSyncOnRange.afterPasses CHUNK_SIZE MAX_CONCURRENT_THREADS rpc track cpExist
        start end_ fuel k st = some st1 →
      DoConcurrentSyncOnRange.loop CHUNK_SIZE MAX_CONCURRENT_THREADS rpc track cpExist start end_
          fuel st.w st.processingThreads st.chunkStartPoint st.chunkEndPoint
        = DoConcurrentSyncOnRange.loop CHUNK_SIZE MAX_CONCURRENT_THREADS rpc track cpExist start
            end_ (fuel - k) st1.w st1.processingThreads st1.chunkStartPoint
            st1.chunkEndPoint := by
  intro k
  induction k with
  | zero =>
    intro fuel st st1 h
    cases fuel <;> simp only [DoConcurrentSyncOnRange.afterPasses, Option.some.injEq] at h <;>
      subst h <;> rfl
  | succ k ih =>
    intro fuel st st1 h
    cases fuel with
    | zero => simp [DoConcurrentSyncOnRange.afterPasses] at h
    | succ f =>
      rw [DoConcurrentSyncOnRange.afterPasses] at h
      rw [DoConcurrentSyncOnRange.loop_succ]
      by_cases hle : st.chunkStartPoint ≤ end_
      · simp only [hle, if_true] at h ⊢
        split at h
        · rename_i st2 hpass
          rw [hpass]
          simp only []
          rw [ih f st2 st1 h, Nat.succ_sub_succ]
        · exact Option.noConfusion h
      · simp [hle] at h

/-- The for loop of the admission wait joins the first joinable thread in spawn order, and
`CheckAndDeleteJoinableProcessingThreads` then erases it (with the threads joined before). -/
theorem joinFirstJoinable_first (pre post : List (Worker F)) (t : Worker F)
    (hpre : ∀ u ∈ pre, u.joinable = false) (ht : t.joinable = true) :
    joinFirstJoinable (pre ++ t :: post) = some (pre ++ { t with joinable := false } :: post) ∧
    CheckAndDeleteJoinableProcessingThreads (pre ++ { t with joinable := false } :: post)
      = post.filter (fun u => u.joinable) := by
  induction pre with
  | nil =>
    simp [joinFirstJoinable, ht, CheckAndDeleteJoinableProcessingThreads]
  | cons u rest ih =>
    have hu : u.joinable = false := hpre u (List.mem_cons_self _ _)
    obtain ⟨h1, h2⟩ := ih (fun v hv => hpre v (List.mem_cons_of_mem _ hv))
    constructor
    · rw [List.cons_append, joinFirstJoinable]
      simp only [hu, Bool.false_eq_true, if_false]
      rw [h1]
      rfl
    · simp only [CheckAndDeleteJoinableProcessingThreads] at h2 ⊢
      simp only [List.cons_append, List.filter_cons, hu, Bool.false_eq_true, if_false, h2]

/-- The admission wait on a set of joinable threads no larger than the cap: it joins and
erases the oldest thread when the set is full, and nothing otherwise. -/
theorem admission_eq {MAX_CONCURRENT_THREADS : Nat} (hM : 1 ≤ MAX_CONCURRENT_THREADS)
    (ts : List (Worker F)) (hj : ∀ t ∈ ts, t.joinable = true)
    (hlen : ts.length ≤ MAX_CONCURRENT_THREADS) (fuel : Nat) (hf : 2 ≤ fuel) :
    admission MAX_CONCURRENT_THREADS fuel ts
      = some (if ts.length ≥ MAX_CONCURRENT_THREADS then ts.tail else ts) := by
  obtain ⟨f, rfl⟩ : ∃ f, fuel = f + 2 := ⟨fuel - 2, by omega⟩
  by_cases hfull : ts.length ≥ MAX_CONCURRENT_THREADS
  · cases ts with
    | nil => simp at hfull; omega
    | cons t rest =>
      have ht : t.joinable = true := hj t (List.mem_cons_self _ _)
      have hrest : ∀ u ∈ rest, u.joinable = true := fun u hu => hj u (List.mem_cons_of_mem _ hu)
      have hfilter : List.filter (fun u : Worker F => u.joinable) rest = rest :=
        List.filter_eq_self.mpr hrest
      have hlt : ¬ rest.length ≥ MAX_CONCURRENT_THREADS := by
        simp only [List.length_cons] at hlen
        omega
      rw [admission, if_pos hfull, if_pos hfull]
      simp only [joinFirstJoinable, ht, if_true, CheckAndDeleteJoinableProcessingThreads,
        List.filter_cons, Bool.false_eq_true, if_false, hfilter, List.tail_cons]
      rw [admission, if_neg hlt]
  · rw [admission, if_neg hfull, if_neg hfull]

/-- A pass that runs to its end on a set of joinable threads no larger than the cap appends
the new thread to a set of fewer threads than the cap. -/
theorem DoConcurrentSyncOnRange.pass_in_flight (CHUNK_SIZE MAX_CONCURRENT_THREADS : Nat)
    (rpc : List (Json F) → RpcOutcome F) (track cpExist : Bool) (start end_ fuel : Nat)
    (hM : 1 ≤ MAX_CONCURRENT_THREADS) (st st1 : RangeLoopState F)
    (hj : ∀ t ∈ st.processingThreads, t.joinable = true)
    (hlen : st.processingThreads.length ≤ MAX_CONCURRENT_THREADS)
    (h : DoConcurrentSyncOnRange.pass CHUNK_SIZE MAX_CONCURRENT_THREADS rpc track cpExist start
      end_ fuel st = some (.ok st1)) :
    ∃ (admitted : List (Worker F)) (spawned : Worker F),
      admission MAX_CONCURRENT_THREADS fuel st.processingThreads = some admitted ∧
      admitted.length < MAX_CONCURRENT_THREADS ∧
      admitted = (if st.processingThreads.length ≥ MAX_CONCURRENT_THREADS
        then st.processingThreads.tail else st.processingThreads) ∧
      st1.processingThreads = admitted ++ [spawned] ∧
      (∀ t ∈ st1.processingThreads, t.joinable = true) ∧
      st1.processingThreads.length ≤ MAX_CONCURRENT_THREADS := by
  unfold DoConcurrentSyncOnRange.pass at h
  simp only [] at h
  split at h
  · exact Option.noConfusion h
  · simp at h
  · split at h
    · exact Option.noConfusion h
    · rename_i admitted hadm
      simp only [Option.some.injEq, Except.ok.injEq] at h
      subst h
      -- the wait returned: it had fuel to spare
      have hfuel : 2 ≤ fuel ∨ st.processingThreads.length < MAX_CONCURRENT_THREADS := by
        by_cases hlt : st.processingThreads.length < MAX_CONCURRENT_THREADS
        · exact Or.inr hlt
        · left
          cases fuel with
          | zero => simp [admission] at hadm
          | succ f =>
            cases f with
            | zero =>
              rw [admission] at hadm
              have hge : st.processingThreads.length ≥ MAX_CONCURRENT_THREADS := by omega
              simp only [hge, if_true] at hadm
              split at hadm <;> simp [admission] at hadm
            | succ g => omega
      have hres : admitted = (if st.processingThreads.length ≥ MAX_CONCURRENT_THREADS
          then st.processingThreads.tail else st.processingThreads) := by
        rcases hfuel with hf | hlt
        · rw [admission_eq hM _ hj hlen fuel hf] at hadm
          exact (Option.some.inj hadm).symm
        · have hnge : ¬ st.processingThreads.length ≥ MAX_CONCURRENT_THREADS := by omega
          cases fuel with
          | zero => simp [admission] at hadm
          | succ f =>
            rw [admission, if_neg hnge] at hadm
            rw [if_neg hnge]
            exact (Option.some.inj hadm).symm
      have hadmlen : admitted.length < MAX_CONCURRENT_THREADS := by
        rw [hres]
        split
        · rw [List.length_tail]; omega
        · omega
      have hadmj : ∀ t ∈ admitted, t.joinable = true := by
        intro t ht
        rw [hres] at ht
        split at ht
        · exact hj t (List.mem_of_mem_tail ht)
        · exact hj t ht
      refine ⟨admitted, _, hadm, hadmlen, hres, rfl, ?_, ?_⟩
      · intro t ht
        rcases List.mem_append.mp ht with h1 | h1
        · exact hadmj t h1
        · simp only [List.mem_singleton] at h1
          rw [h1]
      · simp only [List.length_append, List.length_singleton]
        omega

/-- After any number of passes from a set of joinable threads no larger than the cap, the
threads in flight are joinable and no more than the cap. -/
theorem DoConcurrentSyncOnRange.afterPasses_in_flight (CHUNK_SIZE MAX_CONCURRENT_THREADS : Nat)
    (rpc : List (Json F) → RpcOutcome F) (track cpExist : Bool) (start end_ : Nat)
    (hM : 1 ≤ MAX_CONCURRENT_THREADS) :
    ∀ (k fuel : Nat) (st st1 : RangeLoopState F),
      (∀ t ∈ st.processingThreads, t.joinable = true) →
      st.processingThreads.length ≤ MAX_CONCURRENT_THREADS →
      DoConcurrentSyncOnRange.afterPasses CHUNK_SIZE MAX_CONCURRENT_THREADS rpc track cpExist
        start end_ fuel k st = some st1 →
      (∀ t ∈ st1.processingThreads, t.joinable = true) ∧
      st1.processingThreads.length ≤ MAX_CONCURRENT_THREADS := by
  intro k
  induction k with
  | zero =>
    intro fuel st st1 hj hlen h
    cases fuel <;> simp only [DoConcurrentSyncOnRange.afterPasses, Option.some.injEq] at h <;>
      subst h <;> exact ⟨hj, hlen⟩
  | succ k ih =>
    intro fuel st st1 hj hlen h
    cases fuel with
    | zero => simp [DoConcurrentSyncOnRange.afterPasses] at h
    | succ f =>
      rw [DoConcurrentSyncOnRange.afterPasses] at h
      split at h
      · split at h
        · rename_i st2 hpass
          obtain ⟨_, _, _, _, _, _, hj2, hlen2⟩ := DoConcurrentSyncOnRange.pass_in_flight
            CHUNK_SIZE MAX_CONCURRENT_THREADS rpc track cpExist start end_ f hM st st2 hj hlen
            hpass
          exact ih f st2 st1 hj2 hlen2 h
        · exact Option.noConfusion h
      · exact Option.noConfusion h

/-- C14: in range sync, for every `MAX_CONCURRENT_THREADS >= 1`: (1) from a set of joinable
workers no larger than the cap, the admission wait ends and leaves fewer than
`MAX_CONCURRENT_THREADS` workers in flight: the set without its oldest worker when it was
full, the set itself otherwise; (2) each pass of the wait joins the first joinable
worker in spawn order, and the erase that follows removes it; (3) after any number of passes
of the loop, started with no worker in flight, the workers in flight are joinable and no
more than `MAX_CONCURRENT_THREADS` (so that (1) applies), the state is one the loop goes
through, and the next pass spawns its worker onto a set of fewer than
`MAX_CONCURRENT_THREADS`, which is the set in flight without its oldest worker when that set
was full and the set itself otherwise.  (A join is taken to return: the worker it waits for
ends.) -/
theorem C14_in_flight_bound (CHUNK_SIZE MAX_CONCURRENT_THREADS : Nat)
    (rpc : List (Json F) → RpcOutcome F) (track cpExist : Bool) (start end_ : Nat)
    (hM : 1 ≤ MAX_CONCURRENT_THREADS) :
    (∀ (ts : List (Worker F)) (fuel : Nat), (∀ t ∈ ts, t.joinable = true) →
      ts.length ≤ MAX_CONCURRENT_THREADS → 2 ≤ fuel →
      ∃ admitted, admission MAX_CONCURRENT_THREADS fuel ts = some admitted ∧
        admitted = (if ts.length ≥ MAX_CONCURRENT_THREADS then ts.tail else ts) ∧
        admitted.length < MAX_CONCURRENT_THREADS ∧ (∀ t ∈ admitted, t.joinable = true)) ∧
    (∀ (pre post : List (Worker F)) (t : Worker F),
      (∀ u ∈ pre, u.joinable = false) → t.joinable = true →
      joinFirstJoinable (pre ++ t :: post)
        = some (pre ++ { t with joinable := false } :: post) ∧
      CheckAndDeleteJoinableProcessingThreads (pre ++ { t with joinable := false } :: post)
        = post.filter (fun u => u.joinable)) ∧
    (∀ (k fuel : Nat) (w : Effects F) (chunkStartPoint chunkEndPoint : Nat)
      (st : RangeLoopState F),
      DoConcurrentSyncOnRange.afterPasses CHUNK_SIZE MAX_CONCURRENT_THREADS rpc track cpExist
        start end_ fuel k ⟨w, [], chunkStartPoint, chunkEndPoint⟩ = some st →
      st.processingThreads.length ≤ MAX_CONCURRENT_THREADS ∧
      (∀ t ∈ st.processingThreads, t.joinable = true) ∧
      DoConcurrentSyncOnRange.loop CHUNK_SIZE MAX_CONCURRENT_THREADS rpc track cpExist start end_
          fuel w [] chunkStartPoint chunkEndPoint
        = DoConcurrentSyncOnRange.loop CHUNK_SIZE MAX_CONCURRENT_THREADS rpc track cpExist start
            end_ (fuel - k) st.w st.processingThreads st.chunkStartPoint st.chunkEndPoint ∧
      (∀ (fuel1 : Nat) (st1 : RangeLoopState F),
        DoConcurrentSyncOnRange.pass CHUNK_SIZE MAX_CONCURRENT_THREADS rpc track cpExist start
          end_ fuel1 st = some (.ok st1) →
        ∃ (admitted : List (Worker F)) (spawned : Worker F),
          admission MAX_CONCURRENT_THREADS fuel1 st.processingThreads = some admitted ∧
          admitted = (if st.processingThreads.length ≥ MAX_CONCURRENT_THREADS
            then st.processingThreads.tail else st.processingThreads) ∧
          admitted.length < MAX_CONCURRENT_THREADS ∧
          st1.processingThreads = admitted ++ [spawned] ∧
          st1.processingThreads.length ≤ MAX_CONCURRENT_THREADS)) := by
  refine ⟨?_, ?_, ?_⟩
  · intro ts fuel hj hlen hf
    obtain ⟨ts1, h1, h2, h3⟩ := admission_run hM ts hj hlen fuel hf
    have h4 := h1
    rw [admission_eq hM ts hj hlen fuel hf] at h4
    exact ⟨ts1, h1, (Option.some.inj h4).symm, h3, h2⟩
  · intro pre post t hpre ht
    exact joinFirstJoinable_first pre post t hpre ht
  · intro k fuel w cs ce st h
    obtain ⟨hj, hlen⟩ := DoConcurrentSyncOnRange.afterPasses_in_flight CHUNK_SIZE
      MAX_CONCURRENT_THREADS rpc track cpExist start end_ hM k fuel ⟨w, [], cs, ce⟩ st
      (by simp) (by simp) h
    refine ⟨hlen, hj, ?_, ?_⟩
    · exact DoConcurrentSyncOnRange.loop_afterPasses CHUNK_SIZE MAX_CONCURRENT_THREADS rpc track
        cpExist start end_ k fuel ⟨w, [], cs, ce⟩ st h
    · intro fuel1 st1 hpass
      obtain ⟨admitted, spawned, hadm, hlt, heq, hspawn, _, hlen1⟩ :=
        DoConcurrentSyncOnRange.pass_in_flight CHUNK_SIZE MAX_CONCURRENT_THREADS rpc track
          cpExist start end_ fuel1 hM st st1 hj hlen hpass
      exact ⟨admitted, spawned, hadm, heq, hlt, hspawn, hlen1⟩

/-- C14 with `MAX_CONCURRENT_THREADS = 2` on the range 0..5 cut in chunks of 2: the loop makes
three passes, after which two workers are in flight, and the wait on a set of two workers
ends with the newer of the two in flight. -/
theorem C14_in_flight_bound_witness :
    (∃ st : RangeLoopState Int,
      DoConcurrentSyncOnRange.afterPasses 2 2 nodeAllBlocks true false 0 5 20 3
          ⟨Effects.none, [], 0, 1⟩ = some st ∧
      st.processingThreads.length = 2 ∧ st.processingThreads.length ≤ 2) ∧
    ∃ admitted, admission 2 2 [workerOn 0 1, workerOn 2 3] = some admitted ∧
      admitted = [workerOn 2 3] ∧ admitted.length < 2 ∧
      (∀ t ∈ admitted, t.joinable = true) := by
  constructor
  · have hsome : ((DoConcurrentSyncOnRange.afterPasses 2 2 nodeAllBlocks true false 0 5 20 3
        ⟨Effects.none, [], 0, 1⟩).map (fun st => st.processingThreads.length)) = some 2 := by
      rfl
    cases hst : DoConcurrentSyncOnRange.afterPasses 2 2 nodeAllBlocks true false 0 5 20 3
        ⟨Effects.none, [], 0, 1⟩ with
    | none => rw [hst] at hsome; exact Option.noConfusion hsome
    | some st =>
      rw [hst] at hsome
      exact ⟨st, rfl, Option.some.inj hsome,
        ((C14_in_flight_bound 2 2 nodeAllBlocks true false 0 5 (by decide)).2.2 3 20
          Effects.none 0 1 st hst).1⟩
  · obtain ⟨admitted, h1, h2, h3, h4⟩ :=
      (C14_in_flight_bound 2 2 nodeAllBlocks true false 0 5 (by decide)).1
        [workerOn 0 1, workerOn 2 3] 2
        (by
          intro t ht
          simp only [List.mem_cons, List.mem_singleton, List.not_mem_nil, or_false] at ht
          rcases ht with rfl | rfl <;> rfl)
        (by simp) (by decide)
    exact ⟨admitted, h1, h2, h3, h4⟩

/-! ### C16: the list sync of `Sync` stays within `CHUNK_SIZE` -/

theorem DownloadBlocksFromHeights_returns (CHUNK_SIZE : Nat) (rpc : List (Json F) → RpcOutcome F)
    (w : Effects F) (downloadedBlocks : List (Json F)) (heights : List Nat)
    (h : heights.length ≤ CHUNK_SIZE) :
    (DownloadBlocksFromHeights CHUNK_SIZE rpc w downloadedBlocks heights).1 = .returned := by
  have hn : ¬ heights.length > CHUNK_SIZE := by omega
  simp [DownloadBlocksFromHeights, hn]

theorem DoConcurrentSyncOnChunk_returns (CHUNK_SIZE InvalidHeight : Nat)
    (rpc : List (Json F) → RpcOutcome F) (w : Effects F) (heights : List Nat)
    (h : heights.length ≤ CHUNK_SIZE) :
    (DoConcurrentSyncOnChunk CHUNK_SIZE InvalidHeight rpc w heights).1 = .returned := by
  have hn : ¬ heights.length > CHUNK_SIZE := by omega
  simp [DoConcurrentSyncOnChunk, DownloadBlocksFromHeights, hn,
    JoinAndWaitForAllThreadsToFinish, CheckAndDeleteJoinableProcessingThreads]

/-- The list `Sync` builds on its list-sync path, for cursors that are `uint64_t` values. -/
theorem Sync.newBlocks_byChunk (CHUNK_SIZE latest_synced chain_tip : Nat) (heights : List Nat)
    (h : Sync.newBlocks CHUNK_SIZE latest_synced chain_tip = .byChunk heights) :
    sub64 chain_tip latest_synced ≠ 0 ∧ sub64 chain_tip latest_synced < CHUNK_SIZE ∧
    heights = List.range' (add64 latest_synced 1)
      (add64 chain_tip 1 - add64 latest_synced 1) := by
  unfold Sync.newBlocks at h
  simp only [] at h
  split at h
  · exact SyncPath.noConfusion h
  · rename_i h0
    split at h
    · exact SyncPath.noConfusion h
    · rename_i hlt
      injection h with h
      rw [Sync.collectHeights_eq _ _ _ [] rfl] at h
      exact ⟨h0, by omega, by simpa using h.symm⟩

/-- C16: for every `latest_synced` and `chain_tip` below `2^64 - 1` and every `CHUNK_SIZE`,
with `chain_tip - latest_synced` taken modulo `2^64`: whenever `Sync` takes the list-sync
path, the height list it builds has at most `CHUNK_SIZE` elements (it is the list of the
`chain_tip - latest_synced < CHUNK_SIZE` heights `latest_synced + 1 .. chain_tip` when
`latest_synced < chain_tip`, and empty otherwise), so `DownloadBlocksFromHeights` does not
throw "Only allowed to download CHUNK_SIZE blocks at a time." on it, and
`DoConcurrentSyncOnChunk` returns.  The bound on the length and the two returns also hold for
`latest_synced = 2^64 - 1`. -/
theorem C16_list_sync_within_chunk_size (CHUNK_SIZE InvalidHeight latest_synced chain_tip : Nat)
    (heights : List Nat) (hl : latest_synced < 2 ^ 64) (ht : chain_tip < 2 ^ 64 - 1)
    (h : Sync.newBlocks CHUNK_SIZE latest_synced chain_tip = .byChunk heights) :
    heights.length ≤ CHUNK_SIZE ∧
    (latest_synced < 2 ^ 64 - 1 → latest_synced < chain_tip →
      heights = List.range' (latest_synced + 1) (chain_tip - latest_synced) ∧
      chain_tip - latest_synced < CHUNK_SIZE) ∧
    (latest_synced < 2 ^ 64 - 1 → ¬ latest_synced < chain_tip → heights = []) ∧
    (∀ (rpc : List (Json F) → RpcOutcome F) (w : Effects F) (downloadedBlocks : List (Json F)),
      (DownloadBlocksFromHeights CHUNK_SIZE rpc w downloadedBlocks heights).1 = .returned ∧
      (DoConcurrentSyncOnChunk CHUNK_SIZE InvalidHeight rpc w heights).1 = .returned) := by
  obtain ⟨h0, hlt, hlist⟩ := Sync.newBlocks_byChunk CHUNK_SIZE latest_synced chain_tip heights h
  have ha2 : add64 chain_tip 1 = chain_tip + 1 := add64_succ_of_lt (by omega)
  rw [ha2] at hlist
  have hle : heights.length ≤ CHUNK_SIZE := by
    rw [hlist, List.length_range']
    unfold add64
    unfold sub64 at hlt
    have e : latest_synced % 2 ^ 64 = latest_synced := Nat.mod_eq_of_lt hl
    rw [e] at hlt
    omega
  refine ⟨hle, ?_, ?_, ?_⟩
  · intro hl1 hc
    have ha1 : add64 latest_synced 1 = latest_synced + 1 := add64_succ_of_lt (by omega)
    rw [ha1] at hlist
    have hsub : sub64 chain_tip latest_synced = chain_tip - latest_synced := by
      unfold sub64
      have e : latest_synced % 2 ^ 64 = latest_synced := Nat.mod_eq_of_lt hl
      rw [e]
      omega
    refine ⟨?_, by omega⟩
    rw [hlist]
    congr 1
    omega
  · intro hl1 hc
    have ha1 : add64 latest_synced 1 = latest_synced + 1 := add64_succ_of_lt (by omega)
    rw [ha1] at hlist
    rw [hlist]
    have e : chain_tip + 1 - (latest_synced + 1) = 0 := by omega
    rw [e]
    rfl
  · intro rpc w downloadedBlocks
    exact ⟨DownloadBlocksFromHeights_returns CHUNK_SIZE rpc w downloadedBlocks heights hle,
      DoConcurrentSyncOnChunk_returns CHUNK_SIZE InvalidHeight rpc w heights hle⟩

/-- C16 for an empty store, tip 5 and `CHUNK_SIZE = 10`: the list 1..5 has 5 elements. -/
theorem C16_list_sync_within_chunk_size_witness :
    Sync.newBlocks 10 0 5 = .byChunk [1, 2, 3, 4, 5] ∧
    [1, 2, 3, 4, 5].length ≤ 10 ∧
    (0 < 2 ^ 64 - 1 → 0 < 5 → [1, 2, 3, 4, 5] = List.range' (0 + 1) (5 - 0) ∧ 5 - 0 < 10) ∧
    (0 < 2 ^ 64 - 1 → ¬ 0 < 5 → [1, 2, 3, 4, 5] = []) ∧
    (∀ (rpc : List (Json Int) → RpcOutcome Int) (w : Effects Int)
      (downloadedBlocks : List (Json Int)),
      (DownloadBlocksFromHeights 10 rpc w downloadedBlocks [1, 2, 3, 4, 5]).1 = .returned ∧
      (DoConcurrentSyncOnChunk 10 0 rpc w [1, 2, 3, 4, 5]).1 = .returned) :=
  have hpath : Sync.newBlocks 10 0 5 = .byChunk [1, 2, 3, 4, 5] := by
    have h1 : sub64 5 0 = 5 := by decide
    have h2 : add64 5 1 = 6 := by decide
    have h3 : add64 0 1 = 1 := by decide
    rw [Sync.newBlocks]
    simp only [h1, h2, h3]
    rw [Sync.collectHeights_eq 6 5 1 [] rfl]
    decide
  ⟨hpath, C16_list_sync_within_chunk_size 10 0 0 5 [1, 2, 3, 4, 5] (by norm_num) (by norm_num)
    hpath⟩

end SyncerTheorems

section ChainResourceTheorems

variable {F : Type} [DoubleOps F]

/-- Every pass of the input loop that ends normally ends in `storeInputRow`, on a state with
the rows it started with. -/
theorem storeInput_ok (lookup : OutputLookup F) (tx_id : String) (st st1 : InputsState F)
    (input : Json F) (h : storeInput lookup tx_id st input = .ok st1) :
    ∃ st0 : InputsState F, st1 = storeInputRow tx_id st0 ∧ st0.rows = st.rows := by
  unfold storeInput at h
  simp only [bind, Except.bind, pure, Except.pure] at h
  repeat' split at h
  all_goals first
    | exact Except.noConfusion h
    | (injection h with h; subst h; exact ⟨_, rfl, rfl⟩)

theorem storeInputRow_rows (tx_id : String) (st : InputsState F) :
    ∃ row : Row F, (storeInputRow tx_id st).rows = st.rows ++ [row] ∧
      row.head? = some (.str tx_id) :=
  ⟨_, rfl, rfl⟩

/-- The input loop appends one row per input, each with the transaction's identifier in its
first cell. -/
theorem storeInputs_rows (lookup : OutputLookup F) (tx_id : String) :
    ∀ (inputs : List (Json F)) (st st1 : InputsState F),
      storeInputs lookup tx_id st inputs = .ok st1 →
      ∃ new : List (Row F), st1.rows = st.rows ++ new ∧
        new.map List.head? = List.replicate inputs.length (some (.str tx_id)) := by
  intro inputs
  induction inputs with
  | nil =>
    intro st st1 h
    simp only [storeInputs, Except.ok.injEq] at h
    subst h
    exact ⟨[], by simp, rfl⟩
  | cons input rest ih =>
    intro st st1 h
    rw [storeInputs] at h
    cases hstep : storeInput lookup tx_id st input with
    | error e => rw [hstep] at h; exact Except.noConfusion h
    | ok st2 =>
      rw [hstep] at h
      obtain ⟨st0, rfl, hrows⟩ := storeInput_ok lookup tx_id st st2 input hstep
      obtain ⟨row, hrow, hhead⟩ := storeInputRow_rows tx_id st0
      obtain ⟨new, hnew, hheads⟩ := ih _ st1 h
      refine ⟨row :: new, ?_, ?_⟩
      · rw [hnew, hrow, hrows]
        simp
      · simp [List.replicate_succ, hhead, hheads]

theorem Except.bind_eq_ok_iff {ε α β : Type} (x : Except ε α) (f : α → Except ε β) (b : β) :
    (x >>= f) = .ok b ↔ ∃ a, x = .ok a ∧ f a = .ok b := by
  cases x <;> simp [bind, Except.bind]

theorem storeInputs_append (lookup : OutputLookup F) (tx_id : String) :
    ∀ (l1 l2 : List (Json F)) (st st1 : InputsState F),
      storeInputs lookup tx_id st (l1 ++ l2) = .ok st1 →
      ∃ mid, storeInputs lookup tx_id st l1 = .ok mid ∧
        storeInputs lookup tx_id mid l2 = .ok st1 := by
  intro l1
  induction l1 with
  | nil => intro l2 st st1 h; exact ⟨st, rfl, h⟩
  | cons input rest ih =>
    intro l2 st st1 h
    rw [List.cons_append, storeInputs] at h
    rw [storeInputs]
    cases hstep : storeInput lookup tx_id st input with
    | error e => rw [hstep] at h; exact Except.noConfusion h
    | ok st2 =>
      rw [hstep] at h
      exact ih l2 st2 st1 h

/-- A pass of the input loop on an input with the coinbase text `hex`, from any state. -/
theorem storeInput_coinbase (lookup : OutputLookup F) (tx_id hex : String) (input : Json F)
    (hcb : input.find "coinbase" = .ok (some (.str hex))) (st : InputsState F) :
    ∃ st1, storeInput lookup tx_id st input = .ok st1 ∧
      st1.rows = st.rows ++ [coinbaseRow tx_id hex] ∧ st1.lookups = st.lookups ∧
      st1.total_transparent_input = st.total_transparent_input := by
  refine ⟨storeInputRow tx_id
    { st with coinbase := hex, vin_tx_id := "-1", v_out_idx := 0, senders := "\x7b\x7d" },
    ?_, rfl, rfl, rfl⟩
  simp only [storeInput, Json.isMember, Json.get, hcb, Json.asString, bind, Except.bind,
    Option.isSome_some, if_true, pure, Except.pure]

/-! ### C7: the value and senders of a resolved input -/

/-- C7 fails on the code: the input of transaction `"t1"` that spends `("aa", 0)`, an output
the lookup finds with value 5 and recipients `{"t1addr"}`, is emitted with value 0 and
senders `{}`.  The value was fetched: it is in the transaction's total. -/
theorem C7_found_output_not_copied :
    (_storeTransparentInputs lookupOne "t1" (.arr [spendingInput]) 0 [] []).map
        (fun st => (st.rows, st.lookups, st.total_transparent_input))
      = .ok ([[.str "t1", .str "aa", .num 0, .dbl 0, .str "\x7b\x7d", .str ""]],
          [("aa", 0)], 5) := by
  rfl

/-! ### C8: coinbase inputs -/

/-- C8: for an input whose `coinbase` member is the text `hex`, the pass of the input loop,
from whatever state the earlier inputs left, appends the row `(tx_id, "-1", 0, 0, {}, hex)`,
makes no lookup and leaves the transaction's `total_transparent_input` as it was; and
wherever the input stands in the `vin` array, a call of `_storeTransparentInputs` that returns
has that row at the input's position. -/
theorem C8_coinbase_input (lookup : OutputLookup F) (tx_id hex : String) (input : Json F)
    (hcb : input.find "coinbase" = .ok (some (.str hex))) :
    (∀ st : InputsState F, ∃ st1, storeInput lookup tx_id st input = .ok st1 ∧
      st1.rows = st.rows ++ [coinbaseRow tx_id hex] ∧ st1.lookups = st.lookups ∧
      st1.total_transparent_input = st.total_transparent_input) ∧
    (∀ (pre post : List (Json F)) (total : F) (rows : List (Row F))
      (lookups : List (String × Nat)) (r : InputsState F),
      _storeTransparentInputs lookup tx_id (.arr (pre ++ input :: post)) total rows lookups
        = .ok r →
      r.rows[rows.length + pre.length]? = some (coinbaseRow tx_id hex)) := by
  refine ⟨storeInput_coinbase lookup tx_id hex input hcb, ?_⟩
  intro pre post total rows lookups r h
  unfold _storeTransparentInputs at h
  have hsize : (Json.arr (pre ++ input :: post) : Json F).size > 0 := by
    simp [Json.size]
  simp only [hsize, if_true, Json.items] at h
  obtain ⟨mid, hpre, hrest⟩ := storeInputs_append lookup tx_id pre (input :: post) _ r h
  obtain ⟨new1, hnew1, hheads1⟩ := storeInputs_rows lookup tx_id pre _ mid hpre
  have hlen1 : new1.length = pre.length := by
    have := congrArg List.length hheads1
    simpa using this
  rw [storeInputs] at hrest
  obtain ⟨st1, hstep, hrows1, _, _⟩ := storeInput_coinbase lookup tx_id hex input hcb mid
  rw [hstep] at hrest
  obtain ⟨new2, hnew2, _⟩ := storeInputs_rows lookup tx_id post st1 r hrest
  rw [hnew2, hrows1, hnew1]
  simp only at hlen1 ⊢
  rw [List.append_assoc (rows ++ new1)]
  have hl : (rows ++ new1).length = rows.length + pre.length := by simp [hlen1]
  rw [List.getElem?_append_right (by omega), hl]
  simp

/-- C8 on `coinbaseInput`: its pass appends the coinbase row, and as second input of
`"t1"`, after an input that spends a stored output, its row is the second row. -/
theorem C8_coinbase_input_witness :
    coinbaseInput.find "coinbase" = .ok (some (.str "03a1b2")) ∧
    (∀ st : InputsState Int, ∃ st1, storeInput lookupOne "t1" st coinbaseInput = .ok st1 ∧
      st1.rows = st.rows ++ [coinbaseRow "t1" "03a1b2"] ∧ st1.lookups = st.lookups ∧
      st1.total_transparent_input = st.total_transparent_input) ∧
    _storeTransparentInputs lookupOne "t1" (.arr [spendingInput, coinbaseInput]) 0 [] []
      = .ok twoInputsDecoded ∧
    twoInputsDecoded.rows[1]? = some (coinbaseRow "t1" "03a1b2") :=
  ⟨rfl, (C8_coinbase_input lookupOne "t1" "03a1b2" coinbaseInput rfl).1, rfl,
    (C8_coinbase_input lookupOne "t1" "03a1b2" coinbaseInput rfl).2 [spendingInput] [] 0 [] []
      twoInputsDecoded rfl⟩

/-- C10 fails on the code: for `blockOne`, whose one transaction has the identifier `c0`, the
block row has `num_transactions = 1` and the empty text as `transaction_ids`, not the array
literal `{"c0"}`: the loop fills a local variable that hides the member, and the row is built
from the member. -/
theorem C10_transaction_ids_left_empty :
    (DataToOrmStorageMap lookupOne blockOne).map
        (fun m => m.block.map (fun row => (row[5]?, row[12]?)))
      = .ok [(some (.num 1), some (.str ""))] := by
  rfl

/-! ### C15: the output rows -/

theorem collectRecipients_strings (F : Type) [DoubleOps F] (addresses : List String) :
    ∀ recipients : List String,
      collectRecipients recipients (addresses.map (Json.str : String → Json F))
        = .ok (recipients ++ addresses) := by
  induction addresses with
  | nil => intro recipients; simp [collectRecipients]
  | cons a rest ih =>
    intro recipients
    simp only [List.map_cons, collectRecipients, Json.asString, ih]
    simp

theorem appendRecipients_eq (others : List String) :
    ∀ before acc : String,
      appendRecipients (before ++ acc) others
        = before ++
          String.intercalate.go acc "," (others.map (fun a => "\"" ++ a ++ "\"")) := by
  induction others with
  | nil => intro before acc; simp [appendRecipients, String.intercalate.go]
  | cons r rest ih =>
    intro before acc
    have hq : ",\"" = "," ++ "\"" := by decide
    rw [appendRecipients, List.map_cons, String.intercalate.go, ← ih]
    congr 1
    rw [hq]
    simp only [String.append_assoc]

/-- The text the decoder builds for an array of address texts, or for no array, is the array
literal of those addresses. -/
theorem buildRecipientList_eq (addresses : Json F) (texts : List String)
    (h : addresses = .arr (texts.map Json.str) ∨ (addresses = .null ∧ texts = [])) :
    buildRecipientList [] addresses = .ok (arrayLiteral texts) := by
  have hempty : ("\x7b" ++ "\x7d" : String) = arrayLiteral [] := by decide
  rcases h with h | ⟨h, ht⟩
  · subst h
    cases texts with
    | nil => simp [buildRecipientList, Json.isArray, Json.size, hempty]
    | cons a rest =>
      have hcollect := collectRecipients_strings F (a :: rest) []
      simp only [List.nil_append] at hcollect
      simp only [buildRecipientList, Json.isArray, Json.size, List.length_map, List.length_cons,
        Nat.succ_pos, gt_iff_lt, Nat.zero_lt_succ, decide_True, Bool.and_self, if_true,
        Json.items, hcollect]
      have h1 : ("\x7b" ++ "\"" ++ a ++ "\"" : String) = "\x7b" ++ ("\"" ++ a ++ "\"") := by
        simp only [String.append_assoc]
      rw [h1, appendRecipients_eq]
      simp only [arrayLiteral, List.map_cons, String.intercalate]
  · subst h
    subst ht
    simp [buildRecipientList, Json.isArray, hempty]

theorem toUInt64_natCast {n : Nat} (h : n ≤ 9223372036854775807) : toUInt64 (n : Int) = n := by
  unfold toUInt64
  omega

/-- A pass of the output loop on an entry that says `o`, the vector `recipients` being empty
as every pass leaves it: the pass appends the row of `o` and adds its value to the total. -/
theorem storeOutput_readsAs (tx_id : String) (st : OutputsState F) (vOutEntry : Json F)
    (o : OutputEntry F) (hrec : st.recipients = []) (h : readsAs vOutEntry o) :
    ∃ st1, storeOutput tx_id st vOutEntry = .ok st1 ∧ st1.recipients = [] ∧
      st1.rows = st.rows ++ [outputRow tx_id o] ∧
      st1.total_public_output = DoubleOps.add st.total_public_output o.value := by
  obtain ⟨⟨hn, hrange⟩, ⟨value, hv, hd⟩, ⟨scriptPubKey, addresses, hs, ha, haddr⟩⟩ := h
  have hint : (Json.int (o.n : Int) : Json F).asLargestInt = .ok (o.n : Int) := by
    have h1 : (-9223372036854775808 : Int) ≤ (o.n : Int) := by omega
    have h2 : (o.n : Int) ≤ 9223372036854775807 := by omega
    simp [Json.asLargestInt, h1, h2]
  refine ⟨
    { currentOutputValue := o.value
      outputIndex := toUInt64 (o.n : Int)
      recipients := []
      recipientList := ""
      total_public_output := DoubleOps.add st.total_public_output o.value
      rows := st.rows ++
        [[.str tx_id, .num (toUInt64 (o.n : Int)), .str (arrayLiteral o.addresses),
          .dbl o.value]] }, ?_, rfl, ?_, rfl⟩
  · simp only [storeOutput, hn, hv, hd, hs, ha, hint, hrec, buildRecipientList_eq addresses
      o.addresses haddr, bind, Except.bind, pure, Except.pure]
  · simp [outputRow, toUInt64_natCast hrange]

theorem storeOutputs_readsAs (tx_id : String) (entries : List (Json F))
    (outs : List (OutputEntry F)) (h : List.Forall₂ readsAs entries outs) :
    ∀ st : OutputsState F, st.recipients = [] →
      ∃ st1, storeOutputs tx_id st entries = .ok st1 ∧
        st1.rows = st.rows ++ outs.map (outputRow tx_id) ∧
        st1.total_public_output
          = outs.foldl (fun total o => DoubleOps.add total o.value) st.total_public_output := by
  induction h with
  | nil => intro st _; exact ⟨st, rfl, by simp, rfl⟩
  | cons hhead _ ih =>
    intro st hrec
    obtain ⟨st1, hstep, hrec1, hrows1, htotal1⟩ := storeOutput_readsAs tx_id st _ _ hrec hhead
    obtain ⟨st2, hrest, hrows2, htotal2⟩ := ih st1 hrec1
    refine ⟨st2, ?_, ?_, ?_⟩
    · rw [storeOutputs, hstep]
      exact hrest
    · rw [hrows2, hrows1]
      simp
    · rw [htotal2, htotal1]
      rfl

/-- C15: for every `vout` array whose entries say `outs` (index `n`, value, addresses), the
decoder returns, and the k-th output row it has appended is `(tx_id, n, lit(A), value)` of the
k-th entry, where `A` is that entry's own address list and `lit` the array literal
(`arrayLiteral`: the quoted addresses joined by commas between braces, the bare braces when
the addresses are absent or empty); so no address of an earlier entry is in a later row.
The transaction's `total_public_output` has grown by the entries' values, added in order. -/
theorem C15_output_rows (tx_id : String) (entries : List (Json F)) (outs : List (OutputEntry F))
    (total_public_output : F) (rows : List (Row F))
    (h : List.Forall₂ readsAs entries outs) :
    ∃ st1, _storeTransparentOutputs tx_id (.arr entries) total_public_output rows = .ok st1 ∧
      st1.rows = rows ++ outs.map (outputRow tx_id) ∧
      (∀ k (hk : k < outs.length), st1.rows[rows.length + k]? =
        some [.str tx_id, .num outs[k].n, .str (arrayLiteral outs[k].addresses),
          .dbl outs[k].value]) ∧
      st1.total_public_output
        = outs.foldl (fun total o => DoubleOps.add total o.value) total_public_output := by
  have hrowsAt : ∀ (all : List (Row F)), all = rows ++ outs.map (outputRow tx_id) →
      ∀ k (hk : k < outs.length), all[rows.length + k]? =
        some [.str tx_id, .num outs[k].n, .str (arrayLiteral outs[k].addresses),
          .dbl outs[k].value] := by
    intro all hall k hk
    rw [hall, List.getElem?_append_right (by omega)]
    simp [hk, outputRow]
  unfold _storeTransparentOutputs
  by_cases hsize : (Json.arr entries : Json F).size > 0
  · simp only [hsize, if_true, Json.items]
    obtain ⟨st1, hrun, hrows, htotal⟩ := storeOutputs_readsAs tx_id entries outs h
      ⟨DoubleOps.zero, 0, [], "", total_public_output, rows⟩ rfl
    exact ⟨st1, hrun, hrows, hrowsAt _ hrows, htotal⟩
  · have hnil : entries = [] := by
      cases entries with
      | nil => rfl
      | cons e es => simp [Json.size] at hsize
    subst hnil
    cases h
    simp only [hsize, if_false]
    exact ⟨_, rfl, by simp, hrowsAt _ (by simp), rfl⟩

/-- C15 on a `vout` array of two entries, the first paid to two addresses, the second
without addresses: the rows carry `{"t1a","t1b"}` and `{}`, and the total is 3 + 4. -/
theorem C15_output_rows_witness :
    List.Forall₂ readsAs [outputToTwo, outputToNone]
      [⟨0, 3, ["t1a", "t1b"]⟩, (⟨1, 4, []⟩ : OutputEntry Int)] ∧
    arrayLiteral ["t1a", "t1b"] = "\x7b\"t1a\",\"t1b\"\x7d" ∧
    arrayLiteral [] = "\x7b\x7d" ∧
    ∃ st1, _storeTransparentOutputs "t1" (.arr [outputToTwo, outputToNone]) 0 [] = .ok st1 ∧
      st1.rows = [] ++ [⟨0, 3, ["t1a", "t1b"]⟩, (⟨1, 4, []⟩ : OutputEntry Int)].map
        (outputRow "t1") ∧
      (∀ k (hk : k < [⟨0, 3, ["t1a", "t1b"]⟩, (⟨1, 4, []⟩ : OutputEntry Int)].length),
        st1.rows[([] : List (Row Int)).length + k]? =
          some [.str "t1",
            .num ([⟨0, 3, ["t1a", "t1b"]⟩, (⟨1, 4, []⟩ : OutputEntry Int)][k]).n,
            .str (arrayLiteral
              ([⟨0, 3, ["t1a", "t1b"]⟩, (⟨1, 4, []⟩ : OutputEntry Int)][k]).addresses),
            .dbl ([⟨0, 3, ["t1a", "t1b"]⟩, (⟨1, 4, []⟩ : OutputEntry Int)][k]).value]) ∧
      st1.total_public_output
        = [⟨0, 3, ["t1a", "t1b"]⟩, (⟨1, 4, []⟩ : OutputEntry Int)].foldl
            (fun total o => DoubleOps.add total o.value) 0 :=
  have hread : List.Forall₂ readsAs [outputToTwo, outputToNone]
      [⟨0, 3, ["t1a", "t1b"]⟩, (⟨1, 4, []⟩ : OutputEntry Int)] :=
    List.Forall₂.cons
      ⟨⟨rfl, by decide⟩, ⟨_, rfl, rfl⟩, ⟨_, _, rfl, rfl, Or.inl rfl⟩⟩
      (List.Forall₂.cons
        ⟨⟨rfl, by decide⟩, ⟨_, rfl, rfl⟩, ⟨_, _, rfl, rfl, Or.inr ⟨rfl, rfl⟩⟩⟩
        List.Forall₂.nil)
  ⟨hread, by decide, by decide,
    C15_output_rows "t1" [outputToTwo, outputToNone] _ 0 [] hread⟩

/-! ### C11: which documents are rejected -/

/-- The constructor throws for every document when the member `block` has no array under
`tx`, as a default-constructed `Json::Value` has none. -/
theorem Block_construct_throws (members : Block F) (block rawBlock : Json F)
    (hblock : ∀ tx, block.get "tx" = .ok tx → tx.isArray = false) :
    ∃ e, Block.construct members block rawBlock = .error e := by
  cases hres : Block.construct members block rawBlock with
  | error e => exact ⟨e, rfl⟩
  | ok b =>
    exfalso
    unfold Block.construct at hres
    simp only [Except.bind_eq_ok_iff] at hres
    obtain ⟨_, _, _, _, _, _, _, _, _, _, _, _, _, _, _, _, _, _, _, _, _, _, _, _, _, _, _, _,
      _, _, _, _, _, _, _, _, _, _, _, _, _, _, _, _, _, _, _, _, _, _, tx, htx, hres⟩ := hres
    have hnot := hblock tx htx
    simp [hnot] at hres

theorem decodeRawBlock_throws (lookup : OutputLookup F) (members : Block F)
    (block rawBlock : Json F) (hblock : ∀ tx, block.get "tx" = .ok tx → tx.isArray = false) :
    ∃ e, decodeRawBlock lookup members block rawBlock = .error e := by
  obtain ⟨e, he⟩ := Block_construct_throws members block rawBlock hblock
  exact ⟨e, by simp [decodeRawBlock, he, bind, Except.bind]⟩

/-- C11 fails on the code: the constructor tests `this->block["tx"]`, a member it never
assigns, in place of `rawBlock["tx"]`.  With that member default-constructed (null), every
document is rejected, `goodDocument` among them, which has none of the three defects.  Had the
member held the document, `goodDocument` would give its four row-sets.  And whatever a
declaration might put in the member, the test does not look at the document: with an array
under `tx` in the member, a document whose `tx` is not an array is decoded, to one block
row. -/
theorem C11_every_document_is_rejected :
    (∀ (lookup : OutputLookup Int) (members : Block Int) (rawBlock : Json Int),
      ∃ e, decodeRawBlock lookup members .null rawBlock = .error e) ∧
    decodeRawBlock lookupOne newBlockMembers .null goodDocument
      = .error "Invalid JSON value for Block(rawBlock)" ∧
    (goodDocument.isNull = false ∧ (goodDocument.get "tx").map Json.isArray = .ok true ∧
      [coinbaseTx].all (fun tx => !tx.isNull) = true) ∧
    decodeRawBlock lookupOne newBlockMembers goodDocument goodDocument = .ok blockOneRows ∧
    (decodeRawBlock lookupOne newBlockMembers (.obj [("tx", .arr [])]) txNotArrayDocument).map
        (fun m => (m.block.length, m.transaction.length))
      = .ok (1, 0) := by
  refine ⟨?_, rfl, ⟨rfl, rfl, rfl⟩, rfl, rfl⟩
  intro lookup members rawBlock
  apply decodeRawBlock_throws
  intro tx htx
  simp only [Json.get, Json.find, Except.ok.injEq] at htx
  subst htx
  rfl

end ChainResourceTheorems

end ZcashIndexer
